import Mathlib

/-!
Verification development for the web-proxy-api repository.

Shallow embedding of the request-orchestration engine: the credential pool
selector (`server/utils/selector.ts`), the token-file cache
(`server/utils/handler.ts`), the Grok proxy pool
(`server/utils/grok/proxy-pool.ts`), the Grok client and its token ranking
and SSE transform, the DeepSeek adapter (PoW computation and the
DeepSeek-to-OpenAI SSE transform), the `/v1/chat/completions` route and the
SSE aggregation of the dispatcher.

JavaScript objects keyed by strings are modelled as association lists
(insertion-ordered, like `Object.entries`); JS `Map` likewise.  Timestamps
are integers (milliseconds).  The WASM PoW solver and network I/O are
parameters of the embedded functions.
-/

set_option maxHeartbeats 1000000
set_option maxRecDepth 8000

namespace WebProxyApi

/-- Insertion-ordered string-keyed map, the model of a JS object / `Map`. -/
abbrev AList (β : Type) := List (String × β)

/-- Assignment `obj[k] = v`: overwrite in place if the key exists (JS keeps the
original insertion position), append otherwise. -/
def AList.setKey {β : Type} (k : String) (v : β) : AList β → AList β
  | [] => [(k, v)]
  | (k', v') :: rest =>
    if k' = k then (k, v) :: rest else (k', v') :: AList.setKey k v rest

/-- `Map.delete(k)` / `delete obj[k]`. -/
def AList.eraseKey {β : Type} (k : String) : AList β → AList β
  | [] => []
  | (k', v') :: rest =>
    if k' = k then rest else (k', v') :: AList.eraseKey k rest

/-- `map.get(k)` / `obj[k]` as an `Option`. -/
def AList.getKey {β : Type} (k : String) : AList β → Option β
  | [] => none
  | (k', v') :: rest => if k' = k then some v' else AList.getKey k rest

end WebProxyApi

namespace WebProxyApi.Selector

/-! ### `server/utils/selector.ts`

`Account` carries the `inUse` flag (the `fileName` field duplicates the map
key and is dropped).  `ModelState` is the per-model ring.  `selectAccount`
returns, besides the JS return value, the updated model state, the updated
account map, and the number of ring positions it examined. -/

/-- Per-model selector state: the rotation ring, the cursor, and the
`fileName → skipUntil` map. -/
structure ModelState where
  order : List String
  cursor : Nat
  skippedUntil : WebProxyApi.AList Int
  deriving Repr, DecidableEq

/-- The `accountMap`: `fileName → inUse`. -/
abbrev AccountMap := WebProxyApi.AList Bool

/-- `isSkipped(state, fileName, now)`: a `skipUntil` of `0` (or a missing
entry) is falsy and yields `false`; an expired entry is deleted from the map;
otherwise the account is skipped.  Returns the flag and the updated state. -/
def isSkipped (state : ModelState) (fileName : String) (now : Int) :
    Bool × ModelState :=
  match WebProxyApi.AList.getKey fileName state.skippedUntil with
  | none => (false, state)
  | some until_ =>
    if until_ = 0 then (false, state)
    else if until_ ≤ now then
      (false, { state with
                  skippedUntil := WebProxyApi.AList.eraseKey fileName state.skippedUntil })
    else (true, state)

/-- One outcome of `selectAccount`: the selected file name (if any), the
state and account map after the call, and how many ring entries were
examined. -/
structure SelectResult where
  selected : Option String
  state : ModelState
  accounts : AccountMap
  scanned : Nat
  deriving Repr, DecidableEq

/-- The scan loop of `selectAccount` (`while (scanned < total)`), with the
remaining iteration budget as fuel.  Each step reads `order[cursor % total]`,
advances the cursor, and tests: present in the account map, not `inUse`, and
not skipped. -/
def selectScan (now : Int) (total : Nat) :
    Nat → ModelState → AccountMap → SelectResult
  | 0, state, accounts => ⟨none, state, accounts, 0⟩
  | n + 1, state, accounts =>
    let index := state.cursor % total
    let fileName := state.order.getD index ""
    let state1 := { state with cursor := (index + 1) % total }
    match WebProxyApi.AList.getKey fileName accounts with
    | none =>
      let r := selectScan now total n state1 accounts
      { r with scanned := r.scanned + 1 }
    | some inUse =>
      if inUse then
        let r := selectScan now total n state1 accounts
        { r with scanned := r.scanned + 1 }
      else
        match isSkipped state1 fileName now with
        | (true, state2) =>
          let r := selectScan now total n state2 accounts
          { r with scanned := r.scanned + 1 }
        | (false, state2) =>
          ⟨some fileName, state2,
            WebProxyApi.AList.setKey fileName true accounts, 1⟩

/-- `selectAccount(model)`: empty ring returns null immediately; otherwise
scan at most `order.length` entries starting at the cursor. -/
def selectAccount (now : Int) (state : ModelState) (accounts : AccountMap) :
    SelectResult :=
  if state.order.length = 0 then ⟨none, state, accounts, 0⟩
  else selectScan now state.order.length state.order.length state accounts

/-- `releaseAccount(fileName)`: clear `inUse` when the account exists. -/
def releaseAccount (fileName : String) (accounts : AccountMap) : AccountMap :=
  match WebProxyApi.AList.getKey fileName accounts with
  | none => accounts
  | some _ => WebProxyApi.AList.setKey fileName false accounts

/-- `skipAccount(model, fileName, durationMs)`:
`skipUntil = Date.now() + Math.max(0, durationMs)`. -/
def skipAccount (state : ModelState) (fileName : String) (now : Int)
    (durationMs : Int) : ModelState :=
  { state with
      skippedUntil :=
        WebProxyApi.AList.setKey fileName (now + max 0 durationMs) state.skippedUntil }

/-- `skipAccount` with the omitted third argument: the source declares
`durationMs = 30_000` as the default. -/
def skipAccountDefault (state : ModelState) (fileName : String) (now : Int) :
    ModelState :=
  skipAccount state fileName now 30000

/-- `clearSkip(model, fileName)`. -/
def clearSkip (state : ModelState) (fileName : String) : ModelState :=
  { state with
      skippedUntil := WebProxyApi.AList.eraseKey fileName state.skippedUntil }

/-- A credential is inside an active skip window: a `skipUntil` entry that is
neither `0` (falsy) nor expired. -/
def skipActive (state : ModelState) (fileName : String) (now : Int) : Prop :=
  ∃ u, WebProxyApi.AList.getKey fileName state.skippedUntil = some u ∧
    u ≠ 0 ∧ now < u

instance (state : ModelState) (fileName : String) (now : Int) :
    Decidable (skipActive state fileName now) := by
  unfold skipActive
  exact inferInstance

end WebProxyApi.Selector

namespace WebProxyApi.TokenCache

/-! ### `server/utils/handler.ts` (`TokenCache`)

`getToken` is modelled with the outcome of the file read supplied as an
argument (`ReadOutcome`): a missing file and an unparsable file both land in
the `catch` branch of the source.  `CACHE_TTL` is 5 minutes. -/

/-- A cached token: parsed JSON plus the time it was stored. -/
structure CacheEntry (α : Type) where
  data : α
  timestamp : Int
  deriving Repr, DecidableEq

/-- Per-project cache: `tokens`, `fileList`, `lastScan`. -/
structure ProjectCache (α : Type) where
  tokens : WebProxyApi.AList (CacheEntry α)
  fileList : List String
  lastScan : Int
  deriving Repr, DecidableEq

/-- What `readFile` + `JSON.parse` did for this call. -/
inductive ReadOutcome (α : Type) where
  | missing
  | unparsable
  | ok (data : α)
  deriving Repr, DecidableEq

/-- `CACHE_TTL = 5 * 60 * 1000`. -/
def CACHE_TTL : Int := 5 * 60 * 1000

/-- `getToken(project, filename)` on one project cache: return the cached
data if the entry is younger than `CACHE_TTL`; otherwise read the file —
on success store `{data, timestamp: now}` and return the data, on any
failure delete the entry and return null. -/
def getToken {α : Type} (pc : ProjectCache α) (filename : String)
    (now : Int) (read : ReadOutcome α) : Option α × ProjectCache α :=
  match WebProxyApi.AList.getKey filename pc.tokens with
  | some cached =>
    if now - cached.timestamp < CACHE_TTL then (some cached.data, pc)
    else getTokenLoad pc filename now read
  | none => getTokenLoad pc filename now read
where
  /-- The load-from-filesystem part of `getToken` (the `try`/`catch`). -/
  getTokenLoad (pc : ProjectCache α) (filename : String) (now : Int) :
      ReadOutcome α → Option α × ProjectCache α
  | .ok data =>
    (some data,
      { pc with tokens := WebProxyApi.AList.setKey filename ⟨data, now⟩ pc.tokens })
  | .missing =>
    (none, { pc with tokens := WebProxyApi.AList.eraseKey filename pc.tokens })
  | .unparsable =>
    (none, { pc with tokens := WebProxyApi.AList.eraseKey filename pc.tokens })

/-- `invalidateToken(project, filename)`: delete the entry when the project
cache exists. -/
def invalidateToken {α : Type} (cache : WebProxyApi.AList (ProjectCache α))
    (project filename : String) : WebProxyApi.AList (ProjectCache α) :=
  match WebProxyApi.AList.getKey project cache with
  | none => cache
  | some pc =>
    WebProxyApi.AList.setKey project
      { pc with tokens := WebProxyApi.AList.eraseKey filename pc.tokens } cache

/-- The watcher callback installed by `startWatching`: for a `*.json`
filename it invalidates that filename and resets the project's `lastScan`
to `0`; any other filename is ignored. -/
def watcherCallback {α : Type} (cache : WebProxyApi.AList (ProjectCache α))
    (project filename : String) : WebProxyApi.AList (ProjectCache α) :=
  if filename.endsWith ".json" then
    let cache1 := invalidateToken cache project filename
    match WebProxyApi.AList.getKey project cache1 with
    | none => cache1
    | some pc => WebProxyApi.AList.setKey project { pc with lastScan := 0 } cache1
  else cache

end WebProxyApi.TokenCache

namespace WebProxyApi

/-- JS whitespace characters relevant to the strings the pool handles. -/
def jsWhitespace (c : Char) : Bool :=
  c = ' ' || c = '\t' || c = '\n' || c = '\r' || c = '\x0b' || c = '\x0c'

/-- `String.prototype.trim` on the character list (the strings involved are
ASCII URLs). -/
def strTrim (s : String) : String :=
  ⟨List.reverse (List.dropWhile jsWhitespace
    (List.reverse (List.dropWhile jsWhitespace s.data)))⟩

/-- `s.startsWith(p)` on the character lists. -/
def strStartsWith (s p : String) : Bool :=
  p.data.isPrefixOf s.data

/-- `s.slice(n)` / dropping the first `n` characters, on the character
list. -/
def strDrop (s : String) (n : Nat) : String :=
  ⟨s.data.drop n⟩

end WebProxyApi

namespace WebProxyApi.ProxyPool

/-! ### `server/utils/grok/proxy-pool.ts`

Strings are JS UTF-16 strings; the prefix tests and `replace` calls of
`normalizeProxy` act on the leading characters, so the character-list
helpers `strStartsWith` / `strDrop` model them exactly (each pattern is
ASCII). -/

/-- `normalizeProxy`: trim, then rewrite a leading `sock5h://`, `sock5://`
or `socks5://` (each `replace` is guarded by `startsWith`, so it rewrites
the prefix). -/
def normalizeProxy (proxy : String) : String :=
  let value := strTrim proxy
  let value := if strStartsWith value "sock5h://" then "socks5h://" ++ strDrop value 9 else value
  let value := if strStartsWith value "sock5://" then "socks5://" ++ strDrop value 8 else value
  let value := if strStartsWith value "socks5://" then "socks5h://" ++ strDrop value 9 else value
  value

/-- `looksLikeProxyUrl`. -/
def looksLikeProxyUrl (url : String) : Bool :=
  strStartsWith url "sock5://" || strStartsWith url "sock5h://" ||
    strStartsWith url "socks5://" || strStartsWith url "socks5h://"

/-- `validateProxy`: the empty string is falsy and rejected; otherwise the
accepted schemes are exactly `http://`, `https://`, `socks5://`,
`socks5h://`. -/
def validateProxy (proxy : String) : Bool :=
  if proxy = "" then false
  else strStartsWith proxy "http://" || strStartsWith proxy "https://" ||
    strStartsWith proxy "socks5://" || strStartsWith proxy "socks5h://"

/-- Module state of the proxy pool. -/
structure PoolState where
  staticProxy : Option String
  poolUrl : Option String
  currentProxy : Option String
  lastFetchTime : Int
  fetchInterval : Int
  enabled : Bool
  deriving Repr, DecidableEq

/-- What the GET of the pool URL produced. -/
inductive FetchOutcome where
  | httpError
  | netError
  | text (body : String)
  deriving Repr, DecidableEq

/-- JS truthiness of `currentProxy` (`null` and `""` are falsy). -/
def falsyOpt : Option String → Bool
  | none => true
  | some s => s = ""

/-- `if (!currentProxy) currentProxy = staticProxy`. -/
def fallbackCurrent (st : PoolState) : PoolState :=
  if falsyOpt st.currentProxy then { st with currentProxy := st.staticProxy } else st

/-- `fetchProxy()`: no pool URL is a no-op; a failed GET falls back; a body
is trimmed and normalized, then either installed (with `lastFetchTime`
updated, seconds) or rejected with fallback. -/
def fetchProxy (st : PoolState) (outcome : FetchOutcome) (nowSeconds : Int) :
    PoolState :=
  match st.poolUrl with
  | none => st
  | some _ =>
    match outcome with
    | .httpError => fallbackCurrent st
    | .netError => fallbackCurrent st
    | .text body =>
      let normalized := normalizeProxy (strTrim body)
      if validateProxy normalized then
        { st with currentProxy := some normalized, lastFetchTime := nowSeconds }
      else fallbackCurrent st

/-- `configureGrokProxyPool()` from the three config values (empty string =
unset, matching the `''` defaults). -/
def configureGrokProxyPool (proxyUrl proxyPoolUrl : String)
    (poolInterval : Int) : PoolState :=
  let staticProxy0 : Option String :=
    if proxyUrl = "" then none else some (normalizeProxy proxyUrl)
  let poolUrl0 : Option String :=
    if proxyPoolUrl = "" then none else some (strTrim proxyPoolUrl)
  let looksLike := match poolUrl0 with
    | some u => looksLikeProxyUrl u
    | none => false
  let staticProxy1 :=
    if looksLike then
      match staticProxy0, poolUrl0 with
      | none, some u => some (normalizeProxy u)
      | _, _ => staticProxy0
    else staticProxy0
  let poolUrl1 := if looksLike then none else poolUrl0
  let enabled := poolUrl1.isSome
  { staticProxy := staticProxy1
    poolUrl := poolUrl1
    currentProxy :=
      if enabled then none
      else if staticProxy1.isSome then staticProxy1 else none
    lastFetchTime := 0
    fetchInterval := poolInterval
    enabled := enabled }

end WebProxyApi.ProxyPool

namespace WebProxyApi.Sse

/-! ### OpenAI SSE frames

The frames the adapters emit: `data: {chunk}` payloads and the terminal
`data: [DONE]` marker.  The usage block type is a parameter (`U`), as each
emitter builds a different shape.  Keep-alive comment frames are produced by
a wall-clock timer and are not part of the data-driven transforms. -/

/-- The `delta` object of a streamed chunk. -/
structure Delta where
  role : Option String
  content : Option String
  reasoning_content : Option String
  deriving Repr, DecidableEq

/-- `delta: {}`. -/
def emptyDelta : Delta := ⟨none, none, none⟩

/-- One outbound SSE frame. -/
inductive Frame (U : Type) where
  | chunk (delta : Delta) (finishReason : Option String) (usage : Option U)
  | doneMark
  deriving Repr, DecidableEq

end WebProxyApi.Sse

namespace WebProxyApi.Sse

/-- The `role` field a frame carries (`none` for `[DONE]`). -/
def frameRole {U : Type} : Frame U → Option String
  | .chunk d _ _ => d.role
  | .doneMark => none

/-- How many frames of a stream carry `role: "assistant"`. -/
def roleCount {U : Type} (frames : List (Frame U)) : Nat :=
  frames.countP fun f => decide (frameRole f = some "assistant")

end WebProxyApi.Sse

namespace WebProxyApi.GrokClient

/-! ### `src/unnamed/part_020` (Grok client)

Token records follow the store shape (`part_019`); every field read through
`??` / `||` fallbacks is modelled as an `Option`. -/

/-- One entry of `ssoNormal` / `ssoSuper`. -/
structure GrokTokenRecord where
  createdTime : Option Int
  remainingQueries : Option Int
  heavyremainingQueries : Option Int
  status : String
  failedCount : Option Int
  lastFailureTime : Option Int
  lastFailureReason : Option String
  deriving Repr, DecidableEq

/-- The whole `accounts/grok/token.json` store. -/
structure GrokTokenData where
  ssoNormal : WebProxyApi.AList GrokTokenRecord
  ssoSuper : WebProxyApi.AList GrokTokenRecord
  deriving Repr, DecidableEq

/-- The quota field `selectBestToken` reads. -/
inductive QuotaField where
  | remainingQueries
  | heavyremainingQueries
  deriving Repr, DecidableEq

/-- `data[field]`. -/
def fieldValue (field : QuotaField) (r : GrokTokenRecord) : Option Int :=
  match field with
  | .remainingQueries => r.remainingQueries
  | .heavyremainingQueries => r.heavyremainingQueries

/-- The classification loop of `selectBestToken`: walk `Object.entries` in
order, skip `status === 'expired'`, `failedCount ≥ 3` and `remaining === 0`
entries, and split the rest into `unused` (`remaining === -1`) and `used`
(`remaining > 0`, with the value). -/
def classifyTokens (field : QuotaField) :
    WebProxyApi.AList GrokTokenRecord → List String × List (String × Int)
  | [] => ([], [])
  | (key, data) :: rest =>
    let (unused, used) := classifyTokens field rest
    if data.status = "expired" then (unused, used)
    else if 3 ≤ data.failedCount.getD 0 then (unused, used)
    else
      let remaining := (fieldValue field data).getD (-1)
      if remaining = 0 then (unused, used)
      else if remaining = -1 then (key :: unused, used)
      else if 0 < remaining then (unused, (key, remaining) :: used)
      else (unused, used)

/-- Stable insertion into a descending-by-remaining list: the model of one
step of `used.sort((a, b) => b[1] - a[1])` (a stable sort). -/
def sortInsertDesc (x : String × Int) :
    List (String × Int) → List (String × Int)
  | [] => [x]
  | y :: ys => if y.2 ≤ x.2 then x :: y :: ys else y :: sortInsertDesc x ys

/-- Stable descending sort by the remaining value, the model of
`used.sort((a, b) => b[1] - a[1])`. -/
def sortByRemainingDesc : List (String × Int) → List (String × Int)
  | [] => []
  | x :: xs => sortInsertDesc x (sortByRemainingDesc xs)

/-- `selectBestToken(tokens, field)`: first unused entry wins; otherwise the
used entry with the largest remaining value. -/
def selectBestToken (tokens : WebProxyApi.AList GrokTokenRecord)
    (field : QuotaField) : Option String × Option Int :=
  let (unused, used) := classifyTokens field tokens
  match unused with
  | k :: _ => (some k, some (-1))
  | [] =>
    match sortByRemainingDesc used with
    | [] => (none, none)
    | best :: _ => (some best.1, some best.2)

/-- `selectToken(model)`: pick the quota field from the model name, try
`ssoNormal` first, then `ssoSuper`; `none` models the thrown 503 error. -/
def selectToken (data : GrokTokenData) (model : String) :
    Option (String × String) :=
  let field :=
    if model = "grok-4-heavy" then QuotaField.heavyremainingQueries
    else QuotaField.remainingQueries
  match (selectBestToken data.ssoNormal field).1 with
  | some t => some (t, "ssoNormal")
  | none =>
    match (selectBestToken data.ssoSuper field).1 with
    | some t => some (t, "ssoSuper")
    | none => none

/-- The regex `/sso=([^;]+)/` over the character list of the cookie: the
first position matching literal `sso=` followed by at least one non-`;`
character captures the maximal run of non-`;` characters. -/
def extractSsoList : List Char → Option (List Char)
  | [] => none
  | c :: rest =>
    match c :: rest with
    | 's' :: 's' :: 'o' :: '=' :: tail =>
      match tail.takeWhile (fun ch => ch ≠ ';') with
      | [] => extractSsoList rest
      | cap => some cap
    | _ => extractSsoList rest

/-- `extractSso(authToken)`. -/
def extractSso (authToken : String) : Option String :=
  (extractSsoList authToken.data).map fun l => ⟨l⟩

/-- The mutation `recordFailure` applies to the matched record. -/
def applyFailure (status : Int) (msg : String) (now : Int)
    (r : GrokTokenRecord) : GrokTokenRecord :=
  let failed := r.failedCount.getD 0 + 1
  { r with
      failedCount := some failed
      lastFailureTime := some now
      lastFailureReason := some (toString status ++ ": " ++ msg)
      status :=
        if 400 ≤ status ∧ status < 500 ∧ 3 ≤ failed then "expired" else r.status }

/-- `recordFailure(authToken, status, msg)`: find the sso in `ssoNormal`
then `ssoSuper`, bump the failure fields of the first record found, persist,
and stop.  The boolean reports whether the store was written. -/
def recordFailure (authToken : String) (status : Int) (msg : String)
    (now : Int) (data : GrokTokenData) : GrokTokenData × Bool :=
  match extractSso authToken with
  | none => (data, false)
  | some sso =>
    match WebProxyApi.AList.getKey sso data.ssoNormal with
    | some r =>
      ({ data with
          ssoNormal :=
            WebProxyApi.AList.setKey sso (applyFailure status msg now r) data.ssoNormal },
        true)
    | none =>
      match WebProxyApi.AList.getKey sso data.ssoSuper with
      | some r =>
        ({ data with
            ssoSuper :=
              WebProxyApi.AList.setKey sso (applyFailure status msg now r) data.ssoSuper },
          true)
      | none => (data, false)

/-- The mutation `resetFailure` applies to the matched record. -/
def applyReset (r : GrokTokenRecord) : GrokTokenRecord :=
  { r with
      failedCount := some 0
      lastFailureTime := none
      lastFailureReason := none }

/-- `resetFailure(authToken)`: find the sso in `ssoNormal` then `ssoSuper`,
but only a record with `failedCount > 0` matches; reset the first such
record, persist, and stop. -/
def resetFailure (authToken : String) (data : GrokTokenData) :
    GrokTokenData × Bool :=
  match extractSso authToken with
  | none => (data, false)
  | some sso =>
    let trySuper : GrokTokenData × Bool :=
      match WebProxyApi.AList.getKey sso data.ssoSuper with
      | some r =>
        if 0 < r.failedCount.getD 0 then
          ({ data with
              ssoSuper := WebProxyApi.AList.setKey sso (applyReset r) data.ssoSuper },
            true)
        else (data, false)
      | none => (data, false)
    match WebProxyApi.AList.getKey sso data.ssoNormal with
    | some r =>
      if 0 < r.failedCount.getD 0 then
        ({ data with
            ssoNormal := WebProxyApi.AList.setKey sso (applyReset r) data.ssoNormal },
          true)
      else trySuper
    | none => trySuper

end WebProxyApi.GrokClient

namespace WebProxyApi.GrokStream

/-! ### `src/unnamed/part_020` — `makeChunk` / `streamGrok`

One NDJSON line either fails to parse / lacks `result.response` (`none`) or
yields the fields the transform reads.  Image and video bodies come from the
media cache; those lookups are parameters. -/

/-- The `token` field of `result.response`. -/
inductive GrokTokenVal where
  | absent
  | str (s : String)
  | arr
  deriving Repr, DecidableEq

/-- The fields of `result.response` the stream transform reads. -/
structure GrokRespLine where
  videoUrl : Option String
  generatedImageUrls : Option (List String)
  token : GrokTokenVal
  isThinking : Bool
  deriving Repr, DecidableEq

/-- JS truthiness of an optional string. -/
def optTruthy : Option String → Bool
  | none => false
  | some s => s ≠ ""

/-- `sub.isPrefixOf` at some position of the list: the model of JS
`String.prototype.includes`. -/
def containsSub (sub : List Char) : List Char → Bool
  | [] => sub.isPrefixOf ([] : List Char)
  | c :: rest => sub.isPrefixOf (c :: rest) || containsSub sub rest

/-- `token.includes(tag)`. -/
def jsIncludes (s sub : String) : Bool :=
  containsSub sub.data s.data

/-- `makeChunk(content, modelName, finishReason)`: a non-empty content
string yields `delta: {role: 'assistant', content}`, an empty one
`delta: {}`. -/
def makeChunk {U : Type} (content : String) (finishReason : Option String) :
    WebProxyApi.Sse.Frame U :=
  .chunk
    (if content = "" then WebProxyApi.Sse.emptyDelta
     else ⟨some "assistant", some content, none⟩)
    finishReason none

/-- `streamGrok`: per parsed line — a truthy `videoUrl` or a present
`generatedImageUrls` finishes with a stop chunk and `[DONE]`; otherwise the
`token` string is streamed unless falsy, an array, matching a filtered tag,
or thinking content while `show_thinking` is off.  Upstream end emits the
empty stop chunk and `[DONE]`. -/
def streamGrok {U : Type} (filteredTags : List String) (showThinking : Bool)
    (videoContent : String → String) (imageContent : List String → String) :
    List (Option GrokRespLine) → List (WebProxyApi.Sse.Frame U)
  | [] => [makeChunk "" (some "stop"), .doneMark]
  | none :: rest =>
    streamGrok filteredTags showThinking videoContent imageContent rest
  | some resp :: rest =>
    if optTruthy resp.videoUrl then
      [makeChunk (videoContent (resp.videoUrl.getD "")) (some "stop"), .doneMark]
    else if resp.generatedImageUrls.isSome then
      [makeChunk (imageContent (resp.generatedImageUrls.getD [])) (some "stop"),
        .doneMark]
    else
      match resp.token with
      | .absent =>
        streamGrok filteredTags showThinking videoContent imageContent rest
      | .arr =>
        streamGrok filteredTags showThinking videoContent imageContent rest
      | .str t =>
        if t = "" then
          streamGrok filteredTags showThinking videoContent imageContent rest
        else if filteredTags.any (fun tag => jsIncludes t tag) then
          streamGrok filteredTags showThinking videoContent imageContent rest
        else if !showThinking && resp.isThinking then
          streamGrok filteredTags showThinking videoContent imageContent rest
        else
          makeChunk t none ::
            streamGrok filteredTags showThinking videoContent imageContent rest

/-- The default of `grok.filtered_tags`,
`'xaiartifact,xai:tool_usage_card,grok:render'` split on commas. -/
def defaultFilteredTags : List String :=
  ["xaiartifact", "xai:tool_usage_card", "grok:render"]

end WebProxyApi.GrokStream

namespace WebProxyApi.DeepSeekAdapter

/-! ### `server/utils/projects/deepseek/index.ts` — the stream transform of
`DeepSeekHandler`

One upstream SSE line either parses to a `{p, v}` event or not (`none`
covers non-`data:` lines and JSON parse failures).  `parseDeepseekEvent`
maps an empty payload or `[DONE]` to `{p:'done', v:'[DONE]'}`; events are
fed here already parsed.  The token counter is a parameter. -/

/-- One element of an array-valued `v`. -/
structure ArrItem where
  p : Option String
  v : Option String
  deriving Repr, DecidableEq

/-- The `v` field of an event. -/
inductive DSVal where
  | vstr (s : String)
  | varr (items : List ArrItem)
  | vnone
  | vother
  deriving Repr, DecidableEq

/-- A parsed DeepSeek stream event. -/
structure DSEvent where
  p : Option String
  v : DSVal
  deriving Repr, DecidableEq

/-- `event.v.some(item => item.p === 'status' && item.v === 'FINISHED')`. -/
def hasFinishedSignal (items : List ArrItem) : Bool :=
  items.any fun item =>
    item.p = some "status" && item.v = some "FINISHED"

/-- The usage block of the final chunk of the DeepSeek handler. -/
structure DsUsage where
  prompt_tokens : Nat
  completion_tokens : Nat
  total_tokens : Nat
  reasoning_tokens : Nat
  content_tokens : Nat
  deriving Repr, DecidableEq

/-- The usage block `finish()` computes. -/
def dsUsage (countTokens : String → Nat) (reasoningEnabled : Bool)
    (prompt fullReasoning fullContent : String) : DsUsage :=
  let promptTokens := countTokens prompt
  let reasoningTokens := if reasoningEnabled then countTokens fullReasoning else 0
  let completionTokens := countTokens fullContent
  ⟨promptTokens, reasoningTokens + completionTokens,
    promptTokens + (reasoningTokens + completionTokens),
    reasoningTokens, completionTokens⟩

/-- The two frames `finish()` enqueues: the end chunk (empty delta,
`finish_reason: 'stop'`, usage) and `data: [DONE]`. -/
def dsFinishFrames (countTokens : String → Nat) (reasoningEnabled : Bool)
    (prompt fullReasoning fullContent : String) :
    List (WebProxyApi.Sse.Frame DsUsage) :=
  [.chunk WebProxyApi.Sse.emptyDelta (some "stop")
      (some (dsUsage countTokens reasoningEnabled prompt fullReasoning fullContent)),
    .doneMark]

/-- The event loop of the `DeepSeekHandler` stream transform, carrying
`firstChunkSent`, `fullReasoning` and `fullContent`.  Note the source sets
`firstChunkSent = true` *before* branching on the event path, so a thinking
fragment that is dropped (reasoning disabled) still consumes the
`role: 'assistant'` marker. -/
def dsLoop (countTokens : String → Nat) (reasoningEnabled : Bool)
    (prompt : String) :
    Bool → String → String → List (Option DSEvent) →
    List (WebProxyApi.Sse.Frame DsUsage)
  | _, fullR, fullC, [] =>
    dsFinishFrames countTokens reasoningEnabled prompt fullR fullC
  | fcs, fullR, fullC, none :: rest =>
    dsLoop countTokens reasoningEnabled prompt fcs fullR fullC rest
  | fcs, fullR, fullC, some ev :: rest =>
    if ev.p = some "done" ∨ ev.v = DSVal.vstr "[DONE]" then
      dsFinishFrames countTokens reasoningEnabled prompt fullR fullC
    else if ev.p = some "response/search_status" then
      dsLoop countTokens reasoningEnabled prompt fcs fullR fullC rest
    else
      match ev.v with
      | .varr items =>
        if hasFinishedSignal items then
          dsFinishFrames countTokens reasoningEnabled prompt fullR fullC
        else dsLoop countTokens reasoningEnabled prompt fcs fullR fullC rest
      | .vnone => dsLoop countTokens reasoningEnabled prompt fcs fullR fullC rest
      | .vother => dsLoop countTokens reasoningEnabled prompt fcs fullR fullC rest
      | .vstr s =>
        if s = "" then
          dsLoop countTokens reasoningEnabled prompt fcs fullR fullC rest
        else
          let role : Option String := if fcs then none else some "assistant"
          if ev.p = some "response/thinking_content" then
            if reasoningEnabled then
              .chunk ⟨role, none, some s⟩ none none ::
                dsLoop countTokens reasoningEnabled prompt true (fullR ++ s) fullC rest
            else
              dsLoop countTokens reasoningEnabled prompt true fullR fullC rest
          else
            .chunk ⟨role, some s, none⟩ none none ::
              dsLoop countTokens reasoningEnabled prompt true fullR (fullC ++ s) rest

/-- The whole stream transform of `DeepSeekHandler`: initial state
`firstChunkSent = false`, empty accumulators. -/
def dsHandlerStream (countTokens : String → Nat) (reasoningEnabled : Bool)
    (prompt : String) (events : List (Option DSEvent)) :
    List (WebProxyApi.Sse.Frame DsUsage) :=
  dsLoop countTokens reasoningEnabled prompt false "" "" events

end WebProxyApi.DeepSeekAdapter

namespace WebProxyApi.ChatDispatch

/-! ### `src/unnamed/part_014` — `aggregateSseToOpenAICompletion`

An SSE line is trimmed first; blank lines, comment lines (leading `:`),
non-`data:` lines, an empty payload or `[DONE]`, and unparsable JSON are
all skipped.  A parsed chunk carries the fields the aggregator reads; the
`usage` payload type is a parameter `U` (it is copied verbatim). -/

/-- The `delta` of one choice (only string-typed fields are read). -/
structure OaDelta where
  content : Option String
  reasoning_content : Option String
  deriving Repr, DecidableEq

/-- One element of `chunk.choices`. -/
structure OaChoice where
  finish_reason : Option String
  delta : Option OaDelta
  deriving Repr, DecidableEq

/-- A parsed `data:` chunk.  `id`/`model` are `some` when string-typed
(possibly empty); `created` when number-typed; `choices` is `[]` when the
field is not an array. -/
structure OaChunk (U : Type) where
  id : Option String
  model : Option String
  created : Option Int
  usage : Option U
  choices : List OaChoice
  deriving Repr, DecidableEq

/-- One line of the SSE stream as the aggregator's line filter sees it. -/
inductive SseLine (U : Type) where
  | blank
  | comment
  | notData
  | doneMark
  | malformed
  | chunk (c : OaChunk U)
  deriving Repr, DecidableEq

/-- The mutable locals of `aggregateSseToOpenAICompletion`. -/
structure AggState (U : Type) where
  responseId : String
  responseModel : String
  responseCreated : Int
  finishReason : Option String
  content : String
  reasoningContent : String
  usage : Option U
  deriving Repr, DecidableEq

/-- The per-choice step of the aggregation loop. -/
def aggChoice {U : Type} (st : AggState U) (choice : OaChoice) : AggState U :=
  let st :=
    match choice.finish_reason with
    | some fr => { st with finishReason := some fr }
    | none => st
  match choice.delta with
  | none => st
  | some delta =>
    let st :=
      match delta.content with
      | some s => { st with content := st.content ++ s }
      | none => st
    match delta.reasoning_content with
    | some s => { st with reasoningContent := st.reasoningContent ++ s }
    | none => st

/-- The metadata extraction of one chunk (lines 120-131 of the source):
non-empty string `id`/`model`, numeric `created`, object `usage`. -/
def aggMeta {U : Type} (st : AggState U) (c : OaChunk U) : AggState U :=
  let st :=
    match c.id with
    | some i => if i ≠ "" then { st with responseId := i } else st
    | none => st
  let st :=
    match c.model with
    | some m => if m ≠ "" then { st with responseModel := m } else st
    | none => st
  let st :=
    match c.created with
    | some t => { st with responseCreated := t }
    | none => st
  match c.usage with
  | some u => { st with usage := some u }
  | none => st

/-- The per-line step of the aggregation loop. -/
def aggLine {U : Type} (st : AggState U) : SseLine U → AggState U
  | .blank => st
  | .comment => st
  | .notData => st
  | .doneMark => st
  | .malformed => st
  | .chunk c => c.choices.foldl aggChoice (aggMeta st c)

/-- The final `chat.completion` object. -/
structure OpenAICompletion (U : Type) where
  id : String
  created : Int
  model : String
  content : String
  reasoning_content : Option String
  finish_reason : Option String
  usage : Option U
  deriving Repr, DecidableEq

/-- `aggregateSseToOpenAICompletion(middleContent, sseResponse)`:
fold the lines over the initial state (`finishReason = 'stop'`,
`responseModel = middleContent.model`, `responseCreated = now`), then
assemble the completion, defaulting the id to `chatcmpl-${created}` and
including `reasoning_content` only when non-empty. -/
def aggregateSseToOpenAICompletion {U : Type} (middleModel : String)
    (nowSeconds : Int) (lines : List (SseLine U)) : OpenAICompletion U :=
  let st : AggState U :=
    lines.foldl aggLine
      ⟨"", middleModel, nowSeconds, some "stop", "", "", none⟩
  { id :=
      if st.responseId = "" then "chatcmpl-" ++ toString st.responseCreated
      else st.responseId
    created := st.responseCreated
    model := st.responseModel
    content := st.content
    reasoning_content :=
      if st.reasoningContent = "" then none else some st.reasoningContent
    finish_reason := st.finishReason
    usage := st.usage }

/-! Spec-side observation functions for the aggregation claim: the ordered
delta fragments and the per-field observations of the stream. -/

/-- All `delta.content` strings of one line, in order. -/
def lineContents {U : Type} : SseLine U → List String
  | .chunk c => c.choices.filterMap fun ch => ch.delta.bind OaDelta.content
  | _ => []

/-- All `delta.reasoning_content` strings of one line, in order. -/
def lineReasonings {U : Type} : SseLine U → List String
  | .chunk c => c.choices.filterMap fun ch => ch.delta.bind OaDelta.reasoning_content
  | _ => []

/-- All `finish_reason` values observed on the stream, in order. -/
def observedFinishes {U : Type} (lines : List (SseLine U)) : List String :=
  lines.flatMap fun l =>
    match l with
    | .chunk c => c.choices.filterMap OaChoice.finish_reason
    | _ => []

/-- All `usage` objects observed on the stream, in order. -/
def observedUsages {U : Type} (lines : List (SseLine U)) : List U :=
  lines.filterMap fun l =>
    match l with
    | .chunk c => c.usage
    | _ => none

/-- All non-empty string `id`s observed on the stream, in order. -/
def observedIds {U : Type} (lines : List (SseLine U)) : List String :=
  lines.filterMap fun l =>
    match l with
    | .chunk c => match c.id with
      | some i => if i ≠ "" then some i else none
      | none => none
    | _ => none

/-- All non-empty string `model`s observed on the stream, in order. -/
def observedModels {U : Type} (lines : List (SseLine U)) : List String :=
  lines.filterMap fun l =>
    match l with
    | .chunk c => match c.model with
      | some m => if m ≠ "" then some m else none
      | none => none
    | _ => none

/-- All `created` numbers observed on the stream, in order. -/
def observedCreated {U : Type} (lines : List (SseLine U)) : List Int :=
  lines.filterMap fun l =>
    match l with
    | .chunk c => c.created
    | _ => none

end WebProxyApi.ChatDispatch

namespace WebProxyApi.CompletionsRoute

/-! ### `server/api/v1/chat/completions.post.ts`

The DeepSeek-native stream is a sequence of `data:` lines carrying
`{p, v}` chunks.  In the streaming path, `break` on `data: [DONE]` leaves
only the current network chunk's `for` loop, so the input is a list of line
batches there; the non-stream path reads the whole body at once. -/

/-- The `v` field of a parsed chunk. `vstr ""`, like a missing `v`, is falsy
and the chunk is skipped; arrays are always truthy; `vother` stands for any
other truthy value. -/
inductive RouteVal where
  | vmissing
  | vstr (s : String)
  | varr (items : List WebProxyApi.DeepSeekAdapter.ArrItem)
  | vother
  deriving Repr, DecidableEq

/-- One `data:` line of the upstream body. -/
inductive RouteLine where
  | notData
  | doneMark
  | malformed
  | chunk (p : Option String) (v : RouteVal)
  deriving Repr, DecidableEq

/-- `v_value.find(i => i.p === 'status' && i.v === 'FINISHED')` as a
boolean. -/
def findFinished (items : List WebProxyApi.DeepSeekAdapter.ArrItem) : Bool :=
  WebProxyApi.DeepSeekAdapter.hasFinishedSignal items

/-- The non-stream accumulation loop (`final_text`, `final_thinking`):
`[DONE]` breaks, arrays are skipped, and with `search_enabled` a string
starting with `[citation:` is skipped before accumulation. -/
def nonStreamAgg (searchEnabled : Bool) :
    String → String → List RouteLine → String × String
  | ft, fth, [] => (ft, fth)
  | ft, fth, line :: rest =>
    match line with
    | .notData => nonStreamAgg searchEnabled ft fth rest
    | .malformed => nonStreamAgg searchEnabled ft fth rest
    | .doneMark => (ft, fth)
    | .chunk p v =>
      match v with
      | .vmissing => nonStreamAgg searchEnabled ft fth rest
      | .varr _ => nonStreamAgg searchEnabled ft fth rest
      | .vother => nonStreamAgg searchEnabled ft fth rest
      | .vstr s =>
        if s = "" then nonStreamAgg searchEnabled ft fth rest
        else if searchEnabled && strStartsWith s "[citation:" then
          nonStreamAgg searchEnabled ft fth rest
        else if p = some "response/thinking_content" then
          nonStreamAgg searchEnabled ft (fth ++ s) rest
        else nonStreamAgg searchEnabled (ft ++ s) fth rest

/-- The usage block of the streaming path's final chunk. -/
structure RouteUsage where
  prompt_tokens : Nat
  completion_tokens : Nat
  total_tokens : Nat
  deriving Repr, DecidableEq

/-- Streaming-path state: `first_chunk_sent`, `final_text`,
`final_thinking`. -/
structure StreamState where
  firstChunkSent : Bool
  finalText : String
  finalThinking : String
  deriving Repr, DecidableEq

/-- Processing of one line in the streaming path.  Returns the frames this
line emits, the updated state, and `true` when the FINISHED signal ended the
stream.  A string `v` is the content (emptied when `search_enabled` and it
starts with `[citation:`); any other truthy non-array `v` leaves the content
empty but still sets the `content` key of the delta. -/
def streamLine (searchEnabled thinkingEnabled : Bool)
    (promptTokens : Nat) (estimate : String → Nat) (st : StreamState) :
    RouteLine → List (WebProxyApi.Sse.Frame RouteUsage) × StreamState × Bool
  | .notData => ([], st, false)
  | .malformed => ([], st, false)
  | .doneMark => ([], st, false)
  | .chunk p v =>
    match v with
    | .vmissing => ([], st, false)
    | .varr items =>
      if findFinished items then
        let completionTokens := estimate (st.finalText ++ st.finalThinking)
        ([.chunk WebProxyApi.Sse.emptyDelta (some "stop")
            (some ⟨promptTokens, completionTokens, promptTokens + completionTokens⟩),
          .doneMark], st, true)
      else ([], st, false)
    | .vstr s =>
      if s = "" then ([], st, false) else processContent p s
    | .vother =>
      processContent p ""
where
  /-- Lines 91-150 of the route for a non-array truthy `v`: `content` is the
  string value (or `""` for a non-string), emptied for citations; the delta
  carries `role` on the first chunk, `reasoning_content` for enabled
  thinking, the `content` key for text. -/
  processContent (p : Option String) (raw : String) :
      List (WebProxyApi.Sse.Frame RouteUsage) × StreamState × Bool :=
    let thinking := p = some "response/thinking_content"
    let content := if searchEnabled && strStartsWith raw "[citation:" then "" else raw
    let st1 :=
      if thinking ∧ thinkingEnabled then
        { st with finalThinking := st.finalThinking ++ content }
      else if ¬ thinking then { st with finalText := st.finalText ++ content }
      else st
    let role : Option String := if st.firstChunkSent then none else some "assistant"
    let st2 := { st1 with firstChunkSent := true }
    let delta : WebProxyApi.Sse.Delta :=
      if thinking ∧ thinkingEnabled then ⟨role, none, some content⟩
      else if ¬ thinking then ⟨role, some content, none⟩
      else ⟨role, none, none⟩
    if delta = WebProxyApi.Sse.emptyDelta then ([], st1, false)
    else ([.chunk delta none none], st2, false)

/-- One network chunk (`for (const line of lines)`): `[DONE]` breaks out of
the inner loop; a FINISHED signal returns from the whole stream. -/
def streamBatch (searchEnabled thinkingEnabled : Bool)
    (promptTokens : Nat) (estimate : String → Nat) :
    StreamState → List RouteLine →
    List (WebProxyApi.Sse.Frame RouteUsage) × StreamState × Bool
  | st, [] => ([], st, false)
  | st, .doneMark :: _ => ([], st, false)
  | st, line :: rest =>
    let (frames, st1, stop) :=
      streamLine searchEnabled thinkingEnabled promptTokens estimate st line
    if stop then (frames, st1, true)
    else
      let (frames2, st2, stop2) :=
        streamBatch searchEnabled thinkingEnabled promptTokens estimate st1 rest
    (frames ++ frames2, st2, stop2)

/-- The whole streaming path over the batches of upstream reads. -/
def streamRoute (searchEnabled thinkingEnabled : Bool)
    (promptTokens : Nat) (estimate : String → Nat) :
    StreamState → List (List RouteLine) →
    List (WebProxyApi.Sse.Frame RouteUsage) × StreamState
  | st, [] => ([], st)
  | st, batch :: batches =>
    let (frames, st1, stop) :=
      streamBatch searchEnabled thinkingEnabled promptTokens estimate st batch
    if stop then (frames, st1)
    else
      let (frames2, st2) :=
        streamRoute searchEnabled thinkingEnabled promptTokens estimate st1 batches
      (frames ++ frames2, st2)

end WebProxyApi.CompletionsRoute

namespace WebProxyApi.Pow

/-! ### DeepSeek PoW
`server/utils/projects/deepseek/index.ts` (`computePowAnswer`,
`createPowResponse`) and `server/projects/deepseek/handler.ts`
(`compute_pow_answer`).

The WASM solver writes a 16-byte return area: a little-endian `i32` status
at `retPtr` and a little-endian `f64` at `retPtr + 8`.  The solver is a
parameter producing those two values; every finite JS double is a rational,
so the value is a `ℚ` and `Math.trunc` / `Math.floor` act exactly on it. -/

/-- What `wasm_solve` left in the return area. -/
structure WasmResult where
  status : Int
  value : ℚ

/-- The solver: challenge string, prefix string, difficulty ↦ return area. -/
abbrev Solver := String → String → Int → WasmResult

/-- `Math.trunc`: round toward zero. -/
def jsTrunc (q : ℚ) : Int :=
  if q < 0 then -Int.floor (-q) else Int.floor q

/-- `Math.floor`. -/
def jsFloor (q : ℚ) : Int :=
  Int.floor q

/-- The prefix handed to the solver: `` `${salt}_${expire_at}_` ``. -/
def powPrefixString (salt : String) (expireAt : Int) : String :=
  salt ++ "_" ++ toString expireAt ++ "_"

/-- The challenge fields `computePowAnswer` receives. -/
structure PowChallenge where
  algorithm : String
  challenge : String
  salt : String
  difficulty : Int
  expire_at : Int
  deriving Repr, DecidableEq

/-- `computePowAnswer(challenge)`: only `DeepSeekHashV1` is supported;
status `0` is a failure; otherwise `Math.trunc(value)`. -/
def computePowAnswer (c : PowChallenge) (solve : Solver) : Except String Int :=
  if c.algorithm ≠ "DeepSeekHashV1" then
    .error ("Unsupported PoW algorithm: " ++ c.algorithm)
  else
    let r := solve c.challenge (powPrefixString c.salt c.expire_at) c.difficulty
    if r.status = 0 then .error "Failed to solve DeepSeek PoW challenge"
    else .ok (jsTrunc r.value)

/-- `compute_pow_answer(...)` from `server/projects/deepseek/handler.ts`:
same prefix and status handling, but `Math.floor(value)`, and status `0`
returns null.  An unsupported algorithm still throws (`Except.error`). -/
def compute_pow_answer (algorithm challenge_str salt : String)
    (difficulty : Int) (expire_at : Int) (solve : Solver) :
    Except String (Option Int) :=
  if algorithm ≠ "DeepSeekHashV1" then
    .error ("Unsupported PoW algorithm: " ++ algorithm)
  else
    let r := solve challenge_str (powPrefixString salt expire_at) difficulty
    if r.status = 0 then .ok none
    else .ok (some (jsFloor r.value))

/-! JSON serialization of the PoW payload (`JSON.stringify`) and base64
(`Buffer.toString('base64')`), modelled concretely. -/

/-- Hex digit (lowercase, as `JSON.stringify` emits for control chars). -/
def hexDigit (n : Nat) : Char :=
  if n < 10 then Char.ofNat (48 + n) else Char.ofNat (97 + (n - 10))

/-- JSON escaping of one character, per `JSON.stringify`. -/
def jsonEscapeChar (c : Char) : String :=
  if c = '"' then "\\\""
  else if c = '\\' then "\\\\"
  else if c = Char.ofNat 8 then "\\b"
  else if c = Char.ofNat 9 then "\\t"
  else if c = Char.ofNat 10 then "\\n"
  else if c = Char.ofNat 12 then "\\f"
  else if c = Char.ofNat 13 then "\\r"
  else if c.toNat < 32 then
    "\\u00" ++ String.mk [hexDigit (c.toNat / 16), hexDigit (c.toNat % 16)]
  else String.mk [c]

/-- A JSON string literal. -/
def jsonQuote (s : String) : String :=
  "\"" ++ String.join (s.data.map jsonEscapeChar) ++ "\""

/-- `JSON.stringify` of the PoW payload
`{algorithm, challenge, salt, answer, signature, target_path}` (keys in
insertion order, `answer` an integer). -/
def jsonPowPayload (algorithm challenge salt : String) (answer : Int)
    (signature target_path : String) : String :=
  "\x7b\"algorithm\":" ++ jsonQuote algorithm ++
    ",\"challenge\":" ++ jsonQuote challenge ++
    ",\"salt\":" ++ jsonQuote salt ++
    ",\"answer\":" ++ toString answer ++
    ",\"signature\":" ++ jsonQuote signature ++
    ",\"target_path\":" ++ jsonQuote target_path ++ "\x7d"

/-- UTF-8 bytes of one scalar value. -/
def utf8Char (c : Char) : List Nat :=
  let n := c.toNat
  if n < 128 then [n]
  else if n < 2048 then [192 + n / 64, 128 + n % 64]
  else if n < 65536 then [224 + n / 4096, 128 + n / 64 % 64, 128 + n % 64]
  else [240 + n / 262144, 128 + n / 4096 % 64, 128 + n / 64 % 64, 128 + n % 64]

/-- UTF-8 bytes of a string (`Buffer.from(str, 'utf-8')`). -/
def utf8Bytes (s : String) : List Nat :=
  s.data.flatMap utf8Char

/-- The base64 alphabet. -/
def b64Char (n : Nat) : Char :=
  "ABCDEFGHIJKLMNOPQRSTUVWXYZabcdefghijklmnopqrstuvwxyz0123456789+/".data.getD n 'A'

/-- Standard base64 with padding (`buffer.toString('base64')`). -/
def base64Encode : List Nat → String
  | [] => ""
  | [a] =>
    String.mk [b64Char (a / 4), b64Char (a % 4 * 16)] ++ "=="
  | [a, b] =>
    String.mk [b64Char (a / 4), b64Char (a % 4 * 16 + b / 16),
      b64Char (b % 16 * 4)] ++ "="
  | a :: b :: c :: rest =>
    String.mk [b64Char (a / 4), b64Char (a % 4 * 16 + b / 16),
      b64Char (b % 16 * 4 + c / 64), b64Char (c % 64)] ++ base64Encode rest

/-- The challenge object as delivered by `create_pow_challenge`
(`difficulty` and `expire_at` may be absent). -/
structure PowChallengeWire where
  algorithm : String
  challenge : String
  salt : String
  difficulty : Option Int
  expire_at : Option Int
  signature : String
  target_path : String
  deriving Repr, DecidableEq

/-- The answer-and-encode tail of `createPowResponse`: defaults
`difficulty ?? 144000` and `expire_at ?? 1680000000`, computes the answer,
and base64-encodes the JSON payload for the `x-ds-pow-response` header. -/
def createPowResponseHeader (w : PowChallengeWire) (solve : Solver) :
    Except String String := do
  let answer ← computePowAnswer
    { algorithm := w.algorithm
      challenge := w.challenge
      salt := w.salt
      difficulty := w.difficulty.getD 144000
      expire_at := w.expire_at.getD 1680000000 } solve
  pure (base64Encode (utf8Bytes
    (jsonPowPayload w.algorithm w.challenge w.salt answer w.signature w.target_path)))

end WebProxyApi.Pow

/-! ## Lemmas and theorems -/

namespace WebProxyApi

theorem AList.getKey_setKey_self {β : Type} (k : String) (v : β) (l : AList β) :
    AList.getKey k (AList.setKey k v l) = some v := by
  induction l with
  | nil => simp [AList.setKey, AList.getKey]
  | cons hd tl ih =>
    obtain ⟨k', v'⟩ := hd
    by_cases h : k' = k
    · simp [AList.setKey, h, AList.getKey]
    · rw [AList.setKey, if_neg h, AList.getKey, if_neg h]
      exact ih

theorem AList.getKey_setKey_ne {β : Type} (k g : String) (v : β) (l : AList β)
    (h : g ≠ k) : AList.getKey g (AList.setKey k v l) = AList.getKey g l := by
  induction l with
  | nil => simp [AList.setKey, AList.getKey, Ne.symm h]
  | cons hd tl ih =>
    obtain ⟨k', v'⟩ := hd
    by_cases hk : k' = k
    · subst hk
      rw [AList.setKey, if_pos rfl, AList.getKey, if_neg (Ne.symm h),
        AList.getKey, if_neg fun hc => h (hc.symm)]
    · rw [AList.setKey, if_neg hk]
      by_cases hg : k' = g
      · rw [AList.getKey, if_pos hg, AList.getKey, if_pos hg]
      · rw [AList.getKey, if_neg hg, AList.getKey, if_neg hg]
        exact ih

theorem AList.getKey_eraseKey_ne {β : Type} (k g : String) (l : AList β)
    (h : g ≠ k) : AList.getKey g (AList.eraseKey k l) = AList.getKey g l := by
  induction l with
  | nil => rw [AList.eraseKey]
  | cons hd tl ih =>
    obtain ⟨k', v'⟩ := hd
    by_cases hk : k' = k
    · subst hk
      rw [AList.eraseKey, if_pos rfl, AList.getKey, if_neg fun hc => h (hc.symm)]
    · rw [AList.eraseKey, if_neg hk]
      by_cases hg : k' = g
      · rw [AList.getKey, if_pos hg, AList.getKey, if_pos hg]
      · rw [AList.getKey, if_neg hg, AList.getKey, if_neg hg]
        exact ih

theorem AList.getKey_eq_none_of_not_mem {β : Type} (k : String) (l : AList β)
    (h : k ∉ l.map Prod.fst) : AList.getKey k l = none := by
  induction l with
  | nil => simp [AList.getKey]
  | cons hd tl ih =>
    obtain ⟨k', v'⟩ := hd
    simp only [List.map_cons, List.mem_cons, not_or] at h
    rw [AList.getKey, if_neg fun hc => h.1 (hc.symm)]
    exact ih h.2

theorem AList.getKey_eraseKey_self {β : Type} (k : String) (l : AList β)
    (h : (l.map Prod.fst).Nodup) :
    AList.getKey k (AList.eraseKey k l) = none := by
  induction l with
  | nil => simp [AList.eraseKey, AList.getKey]
  | cons hd tl ih =>
    obtain ⟨k', v'⟩ := hd
    simp only [List.map_cons, List.nodup_cons] at h
    by_cases hk : k' = k
    · subst hk
      rw [AList.eraseKey, if_pos rfl]
      exact AList.getKey_eq_none_of_not_mem k' tl h.1
    · rw [AList.eraseKey, if_neg hk, AList.getKey, if_neg hk]
      exact ih h.2

end WebProxyApi

namespace WebProxyApi.Selector

theorem isSkipped_eq_none (st : ModelState) (f : String) (now : Int)
    (hg : WebProxyApi.AList.getKey f st.skippedUntil = none) :
    isSkipped st f now = (false, st) := by
  unfold isSkipped
  rw [hg]

theorem isSkipped_eq_zero (st : ModelState) (f : String) (now : Int)
    (hg : WebProxyApi.AList.getKey f st.skippedUntil = some 0) :
    isSkipped st f now = (false, st) := by
  unfold isSkipped
  rw [hg]
  simp

theorem isSkipped_eq_expired (st : ModelState) (f : String) (now : Int)
    (u : Int) (hg : WebProxyApi.AList.getKey f st.skippedUntil = some u)
    (h0 : u ≠ 0) (hle : u ≤ now) :
    isSkipped st f now =
      (false, { st with
        skippedUntil := WebProxyApi.AList.eraseKey f st.skippedUntil }) := by
  unfold isSkipped
  rw [hg]
  simp [h0, hle]

theorem isSkipped_eq_active (st : ModelState) (f : String) (now : Int)
    (u : Int) (hg : WebProxyApi.AList.getKey f st.skippedUntil = some u)
    (h0 : u ≠ 0) (hlt : now < u) :
    isSkipped st f now = (true, st) := by
  unfold isSkipped
  rw [hg]
  simp only []
  rw [if_neg h0, if_neg (show ¬ u ≤ now by omega)]

theorem isSkipped_fst_iff (st : ModelState) (f : String) (now : Int) :
    (isSkipped st f now).1 = true ↔ skipActive st f now := by
  rcases hg : WebProxyApi.AList.getKey f st.skippedUntil with _ | u
  · rw [isSkipped_eq_none st f now hg]
    simp only [Bool.false_eq_true, false_iff]
    rintro ⟨u, hu, _, _⟩
    rw [hg] at hu
    cases hu
  · by_cases h0 : u = 0
    · subst h0
      rw [isSkipped_eq_zero st f now hg]
      simp only [Bool.false_eq_true, false_iff]
      rintro ⟨u', hu', hne, _⟩
      rw [hg] at hu'
      rw [Option.some.injEq] at hu'
      exact hne hu'.symm
    · by_cases hle : u ≤ now
      · rw [isSkipped_eq_expired st f now u hg h0 hle]
        simp only [Bool.false_eq_true, false_iff]
        rintro ⟨u', hu', hne, hlt⟩
        rw [hg] at hu'
        rw [Option.some.injEq] at hu'
        omega
      · rw [isSkipped_eq_active st f now u hg h0 (by omega)]
        simp only [true_iff]
        exact ⟨u, hg, h0, by omega⟩

theorem isSkipped_snd_order (st : ModelState) (f : String) (now : Int) :
    (isSkipped st f now).2.order = st.order := by
  rcases hg : WebProxyApi.AList.getKey f st.skippedUntil with _ | u
  · rw [isSkipped_eq_none st f now hg]
  · by_cases h0 : u = 0
    · subst h0
      rw [isSkipped_eq_zero st f now hg]
    · by_cases hle : u ≤ now
      · rw [isSkipped_eq_expired st f now u hg h0 hle]
      · rw [isSkipped_eq_active st f now u hg h0 (by omega)]

theorem isSkipped_snd_cursor (st : ModelState) (f : String) (now : Int) :
    (isSkipped st f now).2.cursor = st.cursor := by
  rcases hg : WebProxyApi.AList.getKey f st.skippedUntil with _ | u
  · rw [isSkipped_eq_none st f now hg]
  · by_cases h0 : u = 0
    · subst h0
      rw [isSkipped_eq_zero st f now hg]
    · by_cases hle : u ≤ now
      · rw [isSkipped_eq_expired st f now u hg h0 hle]
      · rw [isSkipped_eq_active st f now u hg h0 (by omega)]

theorem isSkipped_snd_skipActive (st : ModelState) (f : String) (now : Int)
    (hnd : (st.skippedUntil.map Prod.fst).Nodup) (g : String) :
    skipActive (isSkipped st f now).2 g now ↔ skipActive st g now := by
  rcases hg : WebProxyApi.AList.getKey f st.skippedUntil with _ | u
  · rw [isSkipped_eq_none st f now hg]
  · by_cases h0 : u = 0
    · subst h0
      rw [isSkipped_eq_zero st f now hg]
    · by_cases hle : u ≤ now
      · rw [isSkipped_eq_expired st f now u hg h0 hle]
        unfold skipActive
        by_cases hgf : g = f
        · subst hgf
          constructor
          · rintro ⟨u', hu', _, _⟩
            rw [show ({ st with
                skippedUntil := WebProxyApi.AList.eraseKey g st.skippedUntil } :
                ModelState).skippedUntil =
                WebProxyApi.AList.eraseKey g st.skippedUntil from rfl] at hu'
            rw [WebProxyApi.AList.getKey_eraseKey_self g st.skippedUntil hnd] at hu'
            cases hu'
          · rintro ⟨u', hu', hne, hlt⟩
            rw [hg] at hu'
            rw [Option.some.injEq] at hu'
            omega
        · constructor
          · rintro ⟨u', hu', hne, hlt⟩
            refine ⟨u', ?_, hne, hlt⟩
            rw [← WebProxyApi.AList.getKey_eraseKey_ne f g st.skippedUntil hgf]
            exact hu'
          · rintro ⟨u', hu', hne, hlt⟩
            refine ⟨u', ?_, hne, hlt⟩
            rw [show ({ st with
                skippedUntil := WebProxyApi.AList.eraseKey f st.skippedUntil } :
                ModelState).skippedUntil =
                WebProxyApi.AList.eraseKey f st.skippedUntil from rfl]
            rw [WebProxyApi.AList.getKey_eraseKey_ne f g st.skippedUntil hgf]
            exact hu'
      · rw [isSkipped_eq_active st f now u hg h0 (by omega)]

theorem eraseKey_sublist {β : Type} (k : String) (l : WebProxyApi.AList β) :
    List.Sublist (WebProxyApi.AList.eraseKey k l) l := by
  induction l with
  | nil => simp [WebProxyApi.AList.eraseKey]
  | cons hd tl ih =>
    obtain ⟨k', v'⟩ := hd
    by_cases hk : k' = k
    · rw [WebProxyApi.AList.eraseKey, if_pos hk]
      exact List.sublist_cons_self _ _
    · rw [WebProxyApi.AList.eraseKey, if_neg hk]
      exact ih.cons₂ _

theorem isSkipped_snd_nodup (st : ModelState) (f : String) (now : Int)
    (hnd : (st.skippedUntil.map Prod.fst).Nodup) :
    ((isSkipped st f now).2.skippedUntil.map Prod.fst).Nodup := by
  rcases hg : WebProxyApi.AList.getKey f st.skippedUntil with _ | u
  · rw [isSkipped_eq_none st f now hg]
    exact hnd
  · by_cases h0 : u = 0
    · subst h0
      rw [isSkipped_eq_zero st f now hg]
      exact hnd
    · by_cases hle : u ≤ now
      · rw [isSkipped_eq_expired st f now u hg h0 hle]
        exact ((eraseKey_sublist f st.skippedUntil).map Prod.fst).nodup hnd
      · rw [isSkipped_eq_active st f now u hg h0 (by omega)]
        exact hnd

end WebProxyApi.Selector

namespace WebProxyApi.Selector

theorem selectScan_succ_missing (now : Int) (total n : Nat) (st : ModelState)
    (acc : AccountMap)
    (hacc : WebProxyApi.AList.getKey (st.order.getD (st.cursor % total) "") acc
      = none) :
    selectScan now total (n + 1) st acc =
      (let r := selectScan now total n
        { st with cursor := (st.cursor % total + 1) % total } acc
       { r with scanned := r.scanned + 1 }) := by
  simp only [selectScan, hacc]

theorem selectScan_succ_inUse (now : Int) (total n : Nat) (st : ModelState)
    (acc : AccountMap)
    (hacc : WebProxyApi.AList.getKey (st.order.getD (st.cursor % total) "") acc
      = some true) :
    selectScan now total (n + 1) st acc =
      (let r := selectScan now total n
        { st with cursor := (st.cursor % total + 1) % total } acc
       { r with scanned := r.scanned + 1 }) := by
  simp only [selectScan, hacc]
  rfl

theorem selectScan_succ_skipped (now : Int) (total n : Nat) (st : ModelState)
    (acc : AccountMap) (st2 : ModelState)
    (hacc : WebProxyApi.AList.getKey (st.order.getD (st.cursor % total) "") acc
      = some false)
    (hsk : isSkipped { st with cursor := (st.cursor % total + 1) % total }
      (st.order.getD (st.cursor % total) "") now = (true, st2)) :
    selectScan now total (n + 1) st acc =
      (let r := selectScan now total n st2 acc
       { r with scanned := r.scanned + 1 }) := by
  simp only [selectScan, hacc, hsk]
  simp

theorem selectScan_succ_found (now : Int) (total n : Nat) (st : ModelState)
    (acc : AccountMap) (st2 : ModelState)
    (hacc : WebProxyApi.AList.getKey (st.order.getD (st.cursor % total) "") acc
      = some false)
    (hsk : isSkipped { st with cursor := (st.cursor % total + 1) % total }
      (st.order.getD (st.cursor % total) "") now = (false, st2)) :
    selectScan now total (n + 1) st acc =
      ⟨some (st.order.getD (st.cursor % total) ""), st2,
        WebProxyApi.AList.setKey (st.order.getD (st.cursor % total) "") true acc,
        1⟩ := by
  simp only [selectScan, hacc, hsk]
  simp

end WebProxyApi.Selector

namespace WebProxyApi.Selector

theorem selectScan_order (now : Int) (total : Nat) :
    ∀ (n : Nat) (st : ModelState) (acc : AccountMap),
      (selectScan now total n st acc).state.order = st.order := by
  intro n
  induction n with
  | zero => intro st acc; rfl
  | succ n ih =>
    intro st acc
    rcases hacc : WebProxyApi.AList.getKey (st.order.getD (st.cursor % total) "")
      acc with _ | b
    · rw [selectScan_succ_missing now total n st acc hacc]
      exact ih _ acc
    · cases b
      · rcases hsk : isSkipped { st with cursor := (st.cursor % total + 1) % total }
          (st.order.getD (st.cursor % total) "") now with ⟨bb, st2⟩
        have horder := isSkipped_snd_order
          { st with cursor := (st.cursor % total + 1) % total }
          (st.order.getD (st.cursor % total) "") now
        rw [hsk] at horder
        cases bb
        · rw [selectScan_succ_found now total n st acc st2 hacc hsk]
          exact horder
        · rw [selectScan_succ_skipped now total n st acc st2 hacc hsk]
          rw [ih st2 acc]
          exact horder
      · rw [selectScan_succ_inUse now total n st acc hacc]
        exact ih _ acc

theorem selectScan_scanned_le (now : Int) (total : Nat) :
    ∀ (n : Nat) (st : ModelState) (acc : AccountMap),
      (selectScan now total n st acc).scanned ≤ n := by
  intro n
  induction n with
  | zero => intro st acc; exact Nat.le_refl 0
  | succ n ih =>
    intro st acc
    rcases hacc : WebProxyApi.AList.getKey (st.order.getD (st.cursor % total) "")
      acc with _ | b
    · rw [selectScan_succ_missing now total n st acc hacc]
      exact Nat.succ_le_succ (ih _ acc)
    · cases b
      · rcases hsk : isSkipped { st with cursor := (st.cursor % total + 1) % total }
          (st.order.getD (st.cursor % total) "") now with ⟨bb, st2⟩
        cases bb
        · rw [selectScan_succ_found now total n st acc st2 hacc hsk]
          exact Nat.succ_le_succ (Nat.zero_le n)
        · rw [selectScan_succ_skipped now total n st acc st2 hacc hsk]
          exact Nat.succ_le_succ (ih st2 acc)
      · rw [selectScan_succ_inUse now total n st acc hacc]
        exact Nat.succ_le_succ (ih _ acc)

theorem selectScan_skipActive (now : Int) (total : Nat) :
    ∀ (n : Nat) (st : ModelState) (acc : AccountMap),
      (st.skippedUntil.map Prod.fst).Nodup →
      (((selectScan now total n st acc).state.skippedUntil.map Prod.fst).Nodup ∧
       ∀ g, skipActive (selectScan now total n st acc).state g now ↔
         skipActive st g now) := by
  intro n
  induction n with
  | zero => intro st acc hnd; exact ⟨hnd, fun g => Iff.rfl⟩
  | succ n ih =>
    intro st acc hnd
    rcases hacc : WebProxyApi.AList.getKey (st.order.getD (st.cursor % total) "")
      acc with _ | b
    · rw [selectScan_succ_missing now total n st acc hacc]
      exact ih _ acc hnd
    · cases b
      · rcases hsk : isSkipped { st with cursor := (st.cursor % total + 1) % total }
          (st.order.getD (st.cursor % total) "") now with ⟨bb, st2⟩
        have hnd2 := isSkipped_snd_nodup
          { st with cursor := (st.cursor % total + 1) % total }
          (st.order.getD (st.cursor % total) "") now hnd
        have hpres := isSkipped_snd_skipActive
          { st with cursor := (st.cursor % total + 1) % total }
          (st.order.getD (st.cursor % total) "") now hnd
        rw [hsk] at hnd2 hpres
        cases bb
        · rw [selectScan_succ_found now total n st acc st2 hacc hsk]
          exact ⟨hnd2, hpres⟩
        · rw [selectScan_succ_skipped now total n st acc st2 hacc hsk]
          obtain ⟨hnd3, hpres3⟩ := ih st2 acc hnd2
          exact ⟨hnd3, fun g => (hpres3 g).trans (hpres g)⟩
      · rw [selectScan_succ_inUse now total n st acc hacc]
        exact ih _ acc hnd

theorem selectScan_none (now : Int) (total : Nat) :
    ∀ (n : Nat) (st : ModelState) (acc : AccountMap),
      (selectScan now total n st acc).selected = none →
      (selectScan now total n st acc).accounts = acc ∧
        (selectScan now total n st acc).scanned = n := by
  intro n
  induction n with
  | zero => intro st acc _; exact ⟨rfl, rfl⟩
  | succ n ih =>
    intro st acc hnone
    rcases hacc : WebProxyApi.AList.getKey (st.order.getD (st.cursor % total) "")
      acc with _ | b
    · rw [selectScan_succ_missing now total n st acc hacc] at hnone ⊢
      obtain ⟨h1, h2⟩ := ih _ acc hnone
      refine ⟨h1, ?_⟩
      show (selectScan now total n
        { st with cursor := (st.cursor % total + 1) % total } acc).scanned + 1 = n + 1
      omega
    · cases b
      · rcases hsk : isSkipped { st with cursor := (st.cursor % total + 1) % total }
          (st.order.getD (st.cursor % total) "") now with ⟨bb, st2⟩
        cases bb
        · rw [selectScan_succ_found now total n st acc st2 hacc hsk] at hnone
          cases hnone
        · rw [selectScan_succ_skipped now total n st acc st2 hacc hsk] at hnone ⊢
          obtain ⟨h1, h2⟩ := ih st2 acc hnone
          refine ⟨h1, ?_⟩
          show (selectScan now total n st2 acc).scanned + 1 = n + 1
          omega
      · rw [selectScan_succ_inUse now total n st acc hacc] at hnone ⊢
        obtain ⟨h1, h2⟩ := ih _ acc hnone
        refine ⟨h1, ?_⟩
        show (selectScan now total n
          { st with cursor := (st.cursor % total + 1) % total } acc).scanned + 1 = n + 1
        omega

end WebProxyApi.Selector

namespace WebProxyApi.Selector

theorem selectScan_cursor (now : Int) (total : Nat) :
    ∀ (n : Nat) (st : ModelState) (acc : AccountMap), 0 < total →
      st.cursor < total →
      (selectScan now total n st acc).state.cursor =
        (st.cursor + (selectScan now total n st acc).scanned) % total := by
  intro n
  induction n with
  | zero =>
    intro st acc _ hc
    show st.cursor = (st.cursor + 0) % total
    rw [Nat.add_zero, Nat.mod_eq_of_lt hc]
  | succ n ih =>
    intro st acc h0 hc
    have hcm : st.cursor % total = st.cursor := Nat.mod_eq_of_lt hc
    rcases hacc : WebProxyApi.AList.getKey (st.order.getD (st.cursor % total) "")
      acc with _ | b
    · rw [selectScan_succ_missing now total n st acc hacc]
      have h1 := ih { st with cursor := (st.cursor % total + 1) % total } acc h0
        (Nat.mod_lt _ h0)
      show (selectScan now total n
          { st with cursor := (st.cursor % total + 1) % total } acc).state.cursor =
        (st.cursor + ((selectScan now total n
          { st with cursor := (st.cursor % total + 1) % total } acc).scanned + 1)) % total
      rw [h1]
      show ((st.cursor % total + 1) % total + _) % total = _
      rw [Nat.mod_add_mod, hcm]
      congr 1
      omega
    · cases b
      · rcases hsk : isSkipped { st with cursor := (st.cursor % total + 1) % total }
          (st.order.getD (st.cursor % total) "") now with ⟨bb, st2⟩
        have hcur2 := isSkipped_snd_cursor
          { st with cursor := (st.cursor % total + 1) % total }
          (st.order.getD (st.cursor % total) "") now
        rw [hsk] at hcur2
        cases bb
        · rw [selectScan_succ_found now total n st acc st2 hacc hsk]
          show st2.cursor = (st.cursor + 1) % total
          rw [hcur2]
          show (st.cursor % total + 1) % total = _
          rw [hcm]
        · rw [selectScan_succ_skipped now total n st acc st2 hacc hsk]
          have hc2 : st2.cursor < total := by
            rw [hcur2]
            exact Nat.mod_lt _ h0
          have h1 := ih st2 acc h0 hc2
          show (selectScan now total n st2 acc).state.cursor =
            (st.cursor + ((selectScan now total n st2 acc).scanned + 1)) % total
          rw [h1, hcur2]
          show ((st.cursor % total + 1) % total + _) % total = _
          rw [Nat.mod_add_mod, hcm]
          congr 1
          omega
      · rw [selectScan_succ_inUse now total n st acc hacc]
        have h1 := ih { st with cursor := (st.cursor % total + 1) % total } acc h0
          (Nat.mod_lt _ h0)
        show (selectScan now total n
            { st with cursor := (st.cursor % total + 1) % total } acc).state.cursor =
          (st.cursor + ((selectScan now total n
            { st with cursor := (st.cursor % total + 1) % total } acc).scanned + 1)) % total
        rw [h1]
        show ((st.cursor % total + 1) % total + _) % total = _
        rw [Nat.mod_add_mod, hcm]
        congr 1
        omega

end WebProxyApi.Selector

namespace WebProxyApi.Selector

theorem selectScan_some (now : Int) (total : Nat) :
    ∀ (n : Nat) (st : ModelState) (acc : AccountMap),
      total = st.order.length → 0 < total →
      (st.skippedUntil.map Prod.fst).Nodup →
      ∀ c, (selectScan now total n st acc).selected = some c →
        c ∈ st.order ∧ WebProxyApi.AList.getKey c acc = some false ∧
        ¬ skipActive st c now ∧
        (selectScan now total n st acc).accounts =
          WebProxyApi.AList.setKey c true acc := by
  intro n
  induction n with
  | zero =>
    intro st acc _ _ _ c hsome
    cases hsome
  | succ n ih =>
    intro st acc htot h0 hnd c hsome
    rcases hacc : WebProxyApi.AList.getKey (st.order.getD (st.cursor % total) "")
      acc with _ | b
    · rw [selectScan_succ_missing now total n st acc hacc] at hsome ⊢
      exact ih { st with cursor := (st.cursor % total + 1) % total } acc htot h0
        hnd c hsome
    · cases b
      · rcases hsk : isSkipped { st with cursor := (st.cursor % total + 1) % total }
          (st.order.getD (st.cursor % total) "") now with ⟨bb, st2⟩
        have horder := isSkipped_snd_order
          { st with cursor := (st.cursor % total + 1) % total }
          (st.order.getD (st.cursor % total) "") now
        have hnd2 := isSkipped_snd_nodup
          { st with cursor := (st.cursor % total + 1) % total }
          (st.order.getD (st.cursor % total) "") now hnd
        have hpres := isSkipped_snd_skipActive
          { st with cursor := (st.cursor % total + 1) % total }
          (st.order.getD (st.cursor % total) "") now hnd
        rw [hsk] at horder hnd2 hpres
        cases bb
        · rw [selectScan_succ_found now total n st acc st2 hacc hsk] at hsome ⊢
          have hsel : st.order.getD (st.cursor % total) "" = c := by
            simpa using hsome
          subst hsel
          have hmem : st.order.getD (st.cursor % total) "" ∈ st.order := by
            have hidx : st.cursor % total < st.order.length := by
              rw [← htot]
              exact Nat.mod_lt _ h0
            rw [List.getD_eq_getElem st.order "" hidx]
            exact List.getElem_mem hidx
          have hfst := isSkipped_fst_iff
            { st with cursor := (st.cursor % total + 1) % total }
            (st.order.getD (st.cursor % total) "") now
          rw [hsk] at hfst
          refine ⟨hmem, hacc, ?_, rfl⟩
          intro hact
          have hcontr := hfst.mpr hact
          simp at hcontr
        · rw [selectScan_succ_skipped now total n st acc st2 hacc hsk] at hsome ⊢
          obtain ⟨hm, ha, hs, hset⟩ := ih st2 acc (by rw [horder]; exact htot) h0
            hnd2 c hsome
          refine ⟨by rwa [horder] at hm, ha, ?_, hset⟩
          intro hact
          exact hs ((hpres c).mpr hact)
      · rw [selectScan_succ_inUse now total n st acc hacc] at hsome ⊢
        exact ih { st with cursor := (st.cursor % total + 1) % total } acc htot h0
          hnd c hsome

end WebProxyApi.Selector

namespace WebProxyApi.Selector

theorem selectScan_none_covers (now : Int) (total : Nat) :
    ∀ (n : Nat) (st : ModelState) (acc : AccountMap), 0 < total →
      st.cursor < total → total = st.order.length →
      (st.skippedUntil.map Prod.fst).Nodup →
      (selectScan now total n st acc).selected = none →
      ∀ i, i < n →
        ¬ (WebProxyApi.AList.getKey
            (st.order.getD ((st.cursor + i) % total) "") acc = some false ∧
          ¬ skipActive st (st.order.getD ((st.cursor + i) % total) "") now) := by
  intro n
  induction n with
  | zero =>
    intro st acc _ _ _ _ _ i hi
    omega
  | succ n ih =>
    intro st acc h0 hc htot hnd hnone i hi
    have hcm : st.cursor % total = st.cursor := Nat.mod_eq_of_lt hc
    rcases hacc : WebProxyApi.AList.getKey (st.order.getD (st.cursor % total) "")
      acc with _ | b
    · rw [selectScan_succ_missing now total n st acc hacc] at hnone
      rcases i with _ | j
      · rw [Nat.add_zero, Nat.mod_eq_of_lt hc]
        rw [hcm] at hacc
        rintro ⟨hq, _⟩
        rw [hacc] at hq
        cases hq
      · have hstep := ih { st with cursor := (st.cursor % total + 1) % total } acc
          h0 (Nat.mod_lt _ h0) htot hnd hnone j (by omega)
        have hpos : ((st.cursor % total + 1) % total + j) % total =
            (st.cursor + (j + 1)) % total := by
          rw [Nat.mod_add_mod, hcm]
          congr 1
          omega
        rw [show ({ st with cursor := (st.cursor % total + 1) % total } :
          ModelState).cursor = (st.cursor % total + 1) % total from rfl] at hstep
        rw [hpos] at hstep
        exact hstep
    · cases b
      · rcases hsk : isSkipped { st with cursor := (st.cursor % total + 1) % total }
          (st.order.getD (st.cursor % total) "") now with ⟨bb, st2⟩
        have horder := isSkipped_snd_order
          { st with cursor := (st.cursor % total + 1) % total }
          (st.order.getD (st.cursor % total) "") now
        have hcur2 := isSkipped_snd_cursor
          { st with cursor := (st.cursor % total + 1) % total }
          (st.order.getD (st.cursor % total) "") now
        have hnd2 := isSkipped_snd_nodup
          { st with cursor := (st.cursor % total + 1) % total }
          (st.order.getD (st.cursor % total) "") now hnd
        have hpres := isSkipped_snd_skipActive
          { st with cursor := (st.cursor % total + 1) % total }
          (st.order.getD (st.cursor % total) "") now hnd
        have hfst := isSkipped_fst_iff
          { st with cursor := (st.cursor % total + 1) % total }
          (st.order.getD (st.cursor % total) "") now
        rw [hsk] at horder hcur2 hnd2 hpres hfst
        cases bb
        · rw [selectScan_succ_found now total n st acc st2 hacc hsk] at hnone
          cases hnone
        · rw [selectScan_succ_skipped now total n st acc st2 hacc hsk] at hnone
          rcases i with _ | j
          · rw [Nat.add_zero, Nat.mod_eq_of_lt hc]
            rintro ⟨_, hns⟩
            apply hns
            have hact : skipActive
                { st with cursor := (st.cursor % total + 1) % total }
                (st.order.getD (st.cursor % total) "") now := by
              apply hfst.mp
              rfl
            rw [hcm] at hact
            exact hact
          · have hstep := ih st2 acc h0 (by rw [hcur2]; exact Nat.mod_lt _ h0)
              (by rw [horder]; exact htot) hnd2 hnone j (by omega)
            rw [horder, hcur2] at hstep
            have hpos : ((st.cursor % total + 1) % total + j) % total =
                (st.cursor + (j + 1)) % total := by
              rw [Nat.mod_add_mod, hcm]
              congr 1
              omega
            rw [show ({ st with cursor := (st.cursor % total + 1) % total } :
              ModelState).order = st.order from rfl] at hstep
            rw [show ({ st with cursor := (st.cursor % total + 1) % total } :
              ModelState).cursor = (st.cursor % total + 1) % total from rfl] at hstep
            rw [hpos] at hstep
            rintro ⟨hq, hns⟩
            apply hstep
            refine ⟨hq, ?_⟩
            intro hact2
            exact hns ((hpres _).mp hact2)
      · rw [selectScan_succ_inUse now total n st acc hacc] at hnone
        rcases i with _ | j
        · rw [Nat.add_zero, Nat.mod_eq_of_lt hc]
          rw [hcm] at hacc
          rintro ⟨hq, _⟩
          rw [hacc] at hq
          cases hq
        · have hstep := ih { st with cursor := (st.cursor % total + 1) % total } acc
            h0 (Nat.mod_lt _ h0) htot hnd hnone j (by omega)
          have hpos : ((st.cursor % total + 1) % total + j) % total =
              (st.cursor + (j + 1)) % total := by
            rw [Nat.mod_add_mod, hcm]
            congr 1
            omega
          rw [show ({ st with cursor := (st.cursor % total + 1) % total } :
            ModelState).cursor = (st.cursor % total + 1) % total from rfl] at hstep
          rw [hpos] at hstep
          exact hstep

end WebProxyApi.Selector

namespace WebProxyApi

/-- **C3**: for every model state, `selectAccount` scans at most `ring.size`
entries starting at the cursor and advances the cursor on every step
(so the final cursor is the initial one advanced by the number of examined
positions, modulo the ring size); it returns a credential iff that
credential is not `inUse`, not within a skip window, and exists in the
credential map, marking it `inUse`; when every entry is `inUse`, skipped or
missing it returns null after examining exactly `ring.size` positions, with
the cursor advanced by `ring.size` (modulo the ring size) and the account
map untouched. -/
theorem C3_selectAccount_spec (now : Int) (st : Selector.ModelState)
    (acc : Selector.AccountMap)
    (hcur : st.cursor < st.order.length ∨ st.order = [])
    (hnd : (st.skippedUntil.map Prod.fst).Nodup) :
    (Selector.selectAccount now st acc).scanned ≤ st.order.length ∧
    (Selector.selectAccount now st acc).state.cursor =
      (st.cursor + (Selector.selectAccount now st acc).scanned) %
        st.order.length ∧
    (∀ c, (Selector.selectAccount now st acc).selected = some c →
      c ∈ st.order ∧ WebProxyApi.AList.getKey c acc = some false ∧
      ¬ Selector.skipActive st c now ∧
      (Selector.selectAccount now st acc).accounts =
        WebProxyApi.AList.setKey c true acc) ∧
    ((Selector.selectAccount now st acc).selected = none ↔
      ∀ f ∈ st.order, ¬ (WebProxyApi.AList.getKey f acc = some false ∧
        ¬ Selector.skipActive st f now)) ∧
    ((Selector.selectAccount now st acc).selected = none →
      (Selector.selectAccount now st acc).scanned = st.order.length ∧
      (Selector.selectAccount now st acc).accounts = acc) := by
  by_cases hlen : st.order.length = 0
  · have hordnil : st.order = [] := List.length_eq_zero.mp hlen
    rw [Selector.selectAccount, if_pos hlen]
    refine ⟨Nat.zero_le _, ?_, ?_, ?_, ?_⟩
    · show st.cursor = (st.cursor + 0) % st.order.length
      rw [hlen, Nat.add_zero, Nat.mod_zero]
    · intro c hsome
      cases hsome
    · constructor
      · intro _ f hf
        rw [hordnil] at hf
        cases hf
      · intro _
        rfl
    · intro _
      exact ⟨hlen.symm, rfl⟩
  · have h0 : 0 < st.order.length := Nat.pos_of_ne_zero hlen
    have hc : st.cursor < st.order.length := by
      rcases hcur with h | h
      · exact h
      · rw [h] at h0
        cases h0
    rw [Selector.selectAccount, if_neg hlen]
    refine ⟨Selector.selectScan_scanned_le now _ _ st acc,
      Selector.selectScan_cursor now _ _ st acc h0 hc, ?_, ?_, ?_⟩
    · intro c hsome
      exact Selector.selectScan_some now _ _ st acc rfl h0 hnd c hsome
    · constructor
      · intro hnone f hf
        obtain ⟨j, hj, hfj⟩ := List.mem_iff_getElem.mp hf
        have hcov := Selector.selectScan_none_covers now st.order.length
          st.order.length st acc h0 hc rfl hnd hnone
          ((st.order.length + j - st.cursor) % st.order.length)
          (Nat.mod_lt _ h0)
        have hval : st.cursor + (st.order.length + j - st.cursor) =
            st.order.length + j := by omega
        have hpos : (st.cursor +
            (st.order.length + j - st.cursor) % st.order.length) %
            st.order.length = j := by
          rw [Nat.add_mod_mod, hval, Nat.add_mod_left, Nat.mod_eq_of_lt hj]
        rw [hpos] at hcov
        rw [List.getD_eq_getElem st.order "" hj, hfj] at hcov
        exact hcov
      · intro hall
        rcases hsel : (Selector.selectScan now st.order.length st.order.length
          st acc).selected with _ | c
        · rfl
        · obtain ⟨hm, hq, hs, _⟩ := Selector.selectScan_some now _ _ st acc rfl
            h0 hnd c hsel
          exact absurd ⟨hq, hs⟩ (hall c hm)
    · intro hnone
      obtain ⟨ha, hs⟩ := Selector.selectScan_none now _ _ st acc hnone
      exact ⟨hs, ha⟩

/-- Witness for C3 at the one-credential ring `["x"]` with `x` free: the
scan selects `x` and marks it in use. -/
theorem C3_selectAccount_spec_witness :
    (Selector.selectAccount 0 ⟨["x"], 0, []⟩ [("x", false)]).selected =
      some "x" ∧
    (Selector.selectAccount 0 ⟨["x"], 0, []⟩ [("x", false)]).accounts =
      WebProxyApi.AList.setKey "x" true [("x", false)] := by
  refine ⟨by decide, ?_⟩
  have h := C3_selectAccount_spec 0 ⟨["x"], 0, []⟩ [("x", false)]
    (Or.inl (by decide)) (by decide)
  exact (h.2.2.1 "x" (by decide)).2.2.2

end WebProxyApi

namespace WebProxyApi

/-- **C8**: `skipAccount(model, credential, durationMs)` sets that pair's
`skipUntil` to `now + max(0, durationMs)` and touches nothing else, with the
duration defaulting to 30 000 ms; a credential inside an active skip window
is passed over by `selectAccount`; and in the ring `[x, y]` with both free,
after `acquire = x`, `release(x)` and `skip(model, x, 60 000)` the next
acquire returns `y`, while an acquire 60 s later returns `x` again. -/
theorem C8_skipAccount_spec :
    (∀ (st : Selector.ModelState) (f : String) (now d : Int),
      WebProxyApi.AList.getKey f
          (Selector.skipAccount st f now d).skippedUntil =
        some (now + max 0 d) ∧
      (Selector.skipAccount st f now d).order = st.order ∧
      (Selector.skipAccount st f now d).cursor = st.cursor ∧
      ∀ g, g ≠ f →
        WebProxyApi.AList.getKey g
            (Selector.skipAccount st f now d).skippedUntil =
          WebProxyApi.AList.getKey g st.skippedUntil) ∧
    (∀ (st : Selector.ModelState) (f : String) (now : Int),
      Selector.skipAccountDefault st f now =
        Selector.skipAccount st f now 30000) ∧
    (∀ (st : Selector.ModelState) (acc : Selector.AccountMap) (f : String)
      (now : Int), (st.skippedUntil.map Prod.fst).Nodup →
      Selector.skipActive st f now →
      (Selector.selectAccount now st acc).selected ≠ some f) ∧
    (let st0 : Selector.ModelState := ⟨["x", "y"], 0, []⟩
     let acc0 : Selector.AccountMap := [("x", false), ("y", false)]
     let r1 := Selector.selectAccount 1000 st0 acc0
     let acc2 := Selector.releaseAccount "x" r1.accounts
     let st2 := Selector.skipAccount r1.state "x" 2000 60000
     let r2 := Selector.selectAccount 3000 st2 acc2
     let r3 := Selector.selectAccount 62000 r2.state r2.accounts
     r1.selected = some "x" ∧ r2.selected = some "y" ∧
       r3.selected = some "x") := by
  refine ⟨?_, ?_, ?_, ?_⟩
  · intro st f now d
    refine ⟨WebProxyApi.AList.getKey_setKey_self f _ st.skippedUntil, rfl, rfl, ?_⟩
    intro g hg
    exact WebProxyApi.AList.getKey_setKey_ne f g _ st.skippedUntil hg
  · intro st f now
    rfl
  · intro st acc f now hnd hact hsel
    by_cases hlen : st.order.length = 0
    · rw [Selector.selectAccount, if_pos hlen] at hsel
      cases hsel
    · rw [Selector.selectAccount, if_neg hlen] at hsel
      obtain ⟨_, _, hns, _⟩ := Selector.selectScan_some now st.order.length
        st.order.length st acc rfl (Nat.pos_of_ne_zero hlen) hnd f hsel
      exact hns hact
  · decide

/-- Witness for C8: applying the general skip-window clause at a concrete
skipped credential shows `selectAccount` refuses it. -/
theorem C8_skipAccount_spec_witness :
    (Selector.selectAccount 10 ⟨["x"], 0, [("x", 50)]⟩
      [("x", false)]).selected ≠ some "x" :=
  C8_skipAccount_spec.2.2.1 ⟨["x"], 0, [("x", 50)]⟩ [("x", false)] "x" 10
    (by decide) ⟨50, by decide, by decide, by decide⟩

end WebProxyApi

namespace WebProxyApi

/-- **C9**: `getToken` returns the cached entry when it is younger than 5
minutes (`CACHE_TTL = 300 000` ms); otherwise it reads the file — a
successful read is parsed, stored and returned, while a missing or
unreadable file yields null and removes the entry; and a watcher event for
a `*.json` file invalidates exactly that filename's entry of that project
and resets the project's `lastScan` to 0, leaving other projects
untouched. -/
theorem C9_tokenCache_spec {α : Type} :
    TokenCache.CACHE_TTL = 300000 ∧
    (∀ (pc : TokenCache.ProjectCache α) (f : String) (now : Int)
      (read : TokenCache.ReadOutcome α) (e : TokenCache.CacheEntry α),
      WebProxyApi.AList.getKey f pc.tokens = some e →
      now - e.timestamp < TokenCache.CACHE_TTL →
      TokenCache.getToken pc f now read = (some e.data, pc)) ∧
    (∀ (pc : TokenCache.ProjectCache α) (f : String) (now : Int) (d : α),
      (∀ e, WebProxyApi.AList.getKey f pc.tokens = some e →
        ¬ (now - e.timestamp < TokenCache.CACHE_TTL)) →
      TokenCache.getToken pc f now (.ok d) =
        (some d,
          { pc with tokens := WebProxyApi.AList.setKey f ⟨d, now⟩ pc.tokens })) ∧
    (∀ (pc : TokenCache.ProjectCache α) (f : String) (now : Int),
      (∀ e, WebProxyApi.AList.getKey f pc.tokens = some e →
        ¬ (now - e.timestamp < TokenCache.CACHE_TTL)) →
      TokenCache.getToken pc f now .missing =
        (none, { pc with tokens := WebProxyApi.AList.eraseKey f pc.tokens }) ∧
      TokenCache.getToken pc f now .unparsable =
        (none, { pc with tokens := WebProxyApi.AList.eraseKey f pc.tokens })) ∧
    (∀ (pc : TokenCache.ProjectCache α) (f : String) (now : Int)
      (read : TokenCache.ReadOutcome α),
      (pc.tokens.map Prod.fst).Nodup →
      (read = .missing ∨ read = .unparsable) →
      (∀ e, WebProxyApi.AList.getKey f pc.tokens = some e →
        ¬ (now - e.timestamp < TokenCache.CACHE_TTL)) →
      (TokenCache.getToken pc f now read).1 = none ∧
      WebProxyApi.AList.getKey f (TokenCache.getToken pc f now read).2.tokens =
        none) ∧
    (∀ (cache : WebProxyApi.AList (TokenCache.ProjectCache α))
      (project filename : String) (pc : TokenCache.ProjectCache α),
      filename.endsWith ".json" = true →
      WebProxyApi.AList.getKey project cache = some pc →
      WebProxyApi.AList.getKey project
          (TokenCache.watcherCallback cache project filename) =
        some { tokens := WebProxyApi.AList.eraseKey filename pc.tokens,
               fileList := pc.fileList, lastScan := 0 } ∧
      ∀ q, q ≠ project →
        WebProxyApi.AList.getKey q
            (TokenCache.watcherCallback cache project filename) =
          WebProxyApi.AList.getKey q cache) ∧
    (∀ (cache : WebProxyApi.AList (TokenCache.ProjectCache α))
      (project filename : String),
      filename.endsWith ".json" = false →
      TokenCache.watcherCallback cache project filename = cache) := by
  refine ⟨rfl, ?_, ?_, ?_, ?_, ?_, ?_⟩
  · intro pc f now read e he hfresh
    unfold TokenCache.getToken
    rw [he]
    simp only []
    rw [if_pos hfresh]
  · intro pc f now d hstale
    unfold TokenCache.getToken
    rcases he : WebProxyApi.AList.getKey f pc.tokens with _ | e
    · rfl
    · simp only []
      rw [if_neg (hstale e he)]
      rfl
  · intro pc f now hstale
    constructor
    · unfold TokenCache.getToken
      rcases he : WebProxyApi.AList.getKey f pc.tokens with _ | e
      · rfl
      · simp only []
        rw [if_neg (hstale e he)]
        rfl
    · unfold TokenCache.getToken
      rcases he : WebProxyApi.AList.getKey f pc.tokens with _ | e
      · rfl
      · simp only []
        rw [if_neg (hstale e he)]
        rfl
  · intro pc f now read hnd hread hstale
    have herase : TokenCache.getToken pc f now read =
        (none, { pc with tokens := WebProxyApi.AList.eraseKey f pc.tokens }) := by
      rcases hread with h | h
      · subst h
        unfold TokenCache.getToken
        rcases he : WebProxyApi.AList.getKey f pc.tokens with _ | e
        · rfl
        · simp only []
          rw [if_neg (hstale e he)]
          rfl
      · subst h
        unfold TokenCache.getToken
        rcases he : WebProxyApi.AList.getKey f pc.tokens with _ | e
        · rfl
        · simp only []
          rw [if_neg (hstale e he)]
          rfl
    rw [herase]
    exact ⟨rfl, WebProxyApi.AList.getKey_eraseKey_self f pc.tokens hnd⟩
  · intro cache project filename pc hjson hpc
    have hstep : TokenCache.watcherCallback cache project filename =
        WebProxyApi.AList.setKey project
          { tokens := WebProxyApi.AList.eraseKey filename pc.tokens,
            fileList := pc.fileList, lastScan := 0 }
          (WebProxyApi.AList.setKey project
            { tokens := WebProxyApi.AList.eraseKey filename pc.tokens,
              fileList := pc.fileList, lastScan := pc.lastScan } cache) := by
      unfold TokenCache.watcherCallback TokenCache.invalidateToken
      simp only [hjson, if_true]
      rw [hpc]
      simp only []
      rw [WebProxyApi.AList.getKey_setKey_self]
    rw [hstep]
    constructor
    · rw [WebProxyApi.AList.getKey_setKey_self]
    · intro q hq
      rw [WebProxyApi.AList.getKey_setKey_ne _ q _ _ hq,
        WebProxyApi.AList.getKey_setKey_ne _ q _ _ hq]
  · intro cache project filename hjson
    unfold TokenCache.watcherCallback
    rw [hjson]
    simp

/-- Witness for C9: a 6-minute-old entry is reread from disk and replaced. -/
theorem C9_tokenCache_spec_witness :
    TokenCache.getToken
        (⟨[("a.json", ⟨7, 0⟩)], [], 0⟩ : TokenCache.ProjectCache Nat)
        "a.json" 360000 (.ok 9) =
      (some 9, ⟨[("a.json", ⟨9, 360000⟩)], [], 0⟩) := by
  have h := (@C9_tokenCache_spec Nat).2.2.1
    ⟨[("a.json", ⟨7, 0⟩)], [], 0⟩ "a.json" 360000 9
    (by decide)
  rw [h]
  rfl

end WebProxyApi

namespace WebProxyApi.ChatDispatch

theorem foldl_append_eq (xs : List String) :
    ∀ a : String, xs.foldl (fun r s => r ++ s) a = a ++ String.join xs := by
  induction xs with
  | nil =>
    intro a
    show a = a ++ String.join []
    rw [show String.join [] = "" from rfl, String.append_empty]
  | cons x xs ih =>
    intro a
    show xs.foldl (fun r s => r ++ s) (a ++ x) = a ++ String.join (x :: xs)
    rw [ih (a ++ x)]
    rw [show String.join (x :: xs) = List.foldl (fun r s => r ++ s) ("" ++ x) xs
      from rfl]
    rw [ih ("" ++ x), String.empty_append, String.append_assoc]

theorem join_cons (x : String) (xs : List String) :
    String.join (x :: xs) = x ++ String.join xs := by
  rw [show String.join (x :: xs) = List.foldl (fun r s => r ++ s) ("" ++ x) xs
    from rfl]
  rw [foldl_append_eq xs ("" ++ x), String.empty_append]

theorem join_append (xs ys : List String) :
    String.join (xs ++ ys) = String.join xs ++ String.join ys := by
  induction xs with
  | nil =>
    rw [List.nil_append, show String.join [] = "" from rfl, String.empty_append]
  | cons x xs ih =>
    rw [List.cons_append, join_cons, join_cons, ih, String.append_assoc]

theorem getLast?_append_or {α : Type} (l₁ l₂ : List α) (d : Option α) :
    ((l₁ ++ l₂).getLast?).or d = (l₂.getLast?).or ((l₁.getLast?).or d) := by
  rw [List.getLast?_append]
  exact Option.or_assoc

theorem toListCons_getLast?_or {α : Type} (o : Option α) (l : List α)
    (d : Option α) :
    ((match o with | some x => x :: l | none => l).getLast?).or d =
      (l.getLast?).or (o.or d) := by
  cases o with
  | none => rfl
  | some x =>
    show ((x :: l).getLast?).or d = (l.getLast?).or (some x)
    cases l with
    | nil => rfl
    | cons y ys =>
      rw [List.getLast?_cons_cons]
      rcases h : (y :: ys).getLast? with _ | z
      · have := List.getLast?_isSome.mpr (by simp : (y :: ys) ≠ [])
        rw [h] at this
        cases this
      · rfl

theorem cons_getLast?_getD {α : Type} (x : α) (l : List α) (d : α) :
    ((x :: l).getLast?).getD d = (l.getLast?).getD x := by
  cases l with
  | nil => rfl
  | cons y ys =>
    rw [List.getLast?_cons_cons]
    rcases h : (y :: ys).getLast? with _ | z
    · have := List.getLast?_isSome.mpr (by simp : (y :: ys) ≠ [])
      rw [h] at this
      cases this
    · rfl

theorem toListCons_getLast?_getD {α : Type} (o : Option α) (l : List α)
    (d : α) :
    ((match o with | some x => x :: l | none => l).getLast?).getD d =
      (l.getLast?).getD (o.getD d) := by
  cases o with
  | none => rfl
  | some x =>
    show ((x :: l).getLast?).getD d = (l.getLast?).getD x
    cases l with
    | nil => rfl
    | cons y ys =>
      rw [List.getLast?_cons_cons]
      rcases h : (y :: ys).getLast? with _ | z
      · have := List.getLast?_isSome.mpr (by simp : (y :: ys) ≠ [])
        rw [h] at this
        cases this
      · rfl

end WebProxyApi.ChatDispatch

namespace WebProxyApi.ChatDispatch

theorem aggChoice_spec {U : Type} (st : AggState U) (ch : OaChoice) :
    (aggChoice st ch).responseId = st.responseId ∧
    (aggChoice st ch).responseModel = st.responseModel ∧
    (aggChoice st ch).responseCreated = st.responseCreated ∧
    (aggChoice st ch).usage = st.usage ∧
    (aggChoice st ch).content =
      st.content ++ (ch.delta.bind OaDelta.content).getD "" ∧
    (aggChoice st ch).reasoningContent =
      st.reasoningContent ++ (ch.delta.bind OaDelta.reasoning_content).getD "" ∧
    (aggChoice st ch).finishReason = ch.finish_reason.or st.finishReason := by
  obtain ⟨fr, delta⟩ := ch
  rcases delta with _ | ⟨c, r⟩
  · cases fr <;> simp [aggChoice, String.append_empty, Option.or]
  · cases fr <;> rcases c with _ | s <;> rcases r with _ | t <;>
      simp [aggChoice, String.append_empty, Option.or]

theorem aggMeta_spec {U : Type} (st : AggState U) (c : OaChunk U) :
    (aggMeta st c).content = st.content ∧
    (aggMeta st c).reasoningContent = st.reasoningContent ∧
    (aggMeta st c).finishReason = st.finishReason ∧
    (aggMeta st c).responseId =
      ((match c.id with
        | some i => if i ≠ "" then some i else none
        | none => none : Option String)).getD st.responseId ∧
    (aggMeta st c).responseModel =
      ((match c.model with
        | some m => if m ≠ "" then some m else none
        | none => none : Option String)).getD st.responseModel ∧
    (aggMeta st c).responseCreated = c.created.getD st.responseCreated ∧
    (aggMeta st c).usage = c.usage.or st.usage := by
  rcases hid : c.id with _ | i <;> rcases hm : c.model with _ | m <;>
    rcases hcr : c.created with _ | t <;> rcases hu : c.usage with _ | u <;>
    simp only [aggMeta, hid, hm, hcr, hu, Option.or, Option.getD] <;>
    (try split_ifs) <;> simp

end WebProxyApi.ChatDispatch

namespace WebProxyApi.ChatDispatch

theorem foldChoices_spec {U : Type} :
    ∀ (choices : List OaChoice) (st : AggState U),
      (choices.foldl aggChoice st).responseId = st.responseId ∧
      (choices.foldl aggChoice st).responseModel = st.responseModel ∧
      (choices.foldl aggChoice st).responseCreated = st.responseCreated ∧
      (choices.foldl aggChoice st).usage = st.usage ∧
      (choices.foldl aggChoice st).content =
        st.content ++ String.join
          (choices.filterMap fun ch => ch.delta.bind OaDelta.content) ∧
      (choices.foldl aggChoice st).reasoningContent =
        st.reasoningContent ++ String.join
          (choices.filterMap fun ch => ch.delta.bind OaDelta.reasoning_content) ∧
      (choices.foldl aggChoice st).finishReason =
        ((choices.filterMap OaChoice.finish_reason).getLast?).or
          st.finishReason := by
  intro choices
  induction choices with
  | nil =>
    intro st
    refine ⟨rfl, rfl, rfl, rfl, ?_, ?_, rfl⟩
    · rw [show String.join (List.filterMap _ []) = "" from rfl,
        String.append_empty]
      rfl
    · rw [show String.join (List.filterMap _ []) = "" from rfl,
        String.append_empty]
      rfl
  | cons ch rest ih =>
    intro st
    obtain ⟨A1, A2, A3, A4, A5, A6, A7⟩ := aggChoice_spec st ch
    obtain ⟨I1, I2, I3, I4, I5, I6, I7⟩ := ih (aggChoice st ch)
    rw [List.foldl_cons] at *
    refine ⟨I1.trans A1, I2.trans A2, I3.trans A3, I4.trans A4, ?_, ?_, ?_⟩
    · rw [I5, A5]
      rcases hb : ch.delta.bind OaDelta.content with _ | s
      · rw [List.filterMap_cons, hb]
        rw [show (none : Option String).getD "" = "" from rfl,
          String.append_empty]
      · rw [List.filterMap_cons, hb, join_cons]
        rw [show (some s).getD "" = s from rfl, String.append_assoc]
    · rw [I6, A6]
      rcases hb : ch.delta.bind OaDelta.reasoning_content with _ | s
      · rw [List.filterMap_cons, hb]
        rw [show (none : Option String).getD "" = "" from rfl,
          String.append_empty]
      · rw [List.filterMap_cons, hb, join_cons]
        rw [show (some s).getD "" = s from rfl, String.append_assoc]
    · rw [I7, A7]
      rcases hfr : ch.finish_reason with _ | x
      · rw [List.filterMap_cons, hfr]
        rfl
      · rw [List.filterMap_cons, hfr]
        simp only []
        cases hrest : (rest.filterMap OaChoice.finish_reason) with
        | nil => rfl
        | cons y ys =>
          rw [List.getLast?_cons_cons]
          rcases h : (y :: ys).getLast? with _ | z
          · have := List.getLast?_isSome.mpr (by simp : (y :: ys) ≠ [])
            rw [h] at this
            cases this
          · rfl

end WebProxyApi.ChatDispatch

namespace WebProxyApi.ChatDispatch

theorem foldLines_spec {U : Type} :
    ∀ (lines : List (SseLine U)) (st : AggState U),
      (lines.foldl aggLine st).content =
        st.content ++ String.join (lines.flatMap lineContents) ∧
      (lines.foldl aggLine st).reasoningContent =
        st.reasoningContent ++ String.join (lines.flatMap lineReasonings) ∧
      (lines.foldl aggLine st).finishReason =
        ((observedFinishes lines).getLast?).or st.finishReason ∧
      (lines.foldl aggLine st).usage =
        ((observedUsages lines).getLast?).or st.usage ∧
      (lines.foldl aggLine st).responseId =
        ((observedIds lines).getLast?).getD st.responseId ∧
      (lines.foldl aggLine st).responseModel =
        ((observedModels lines).getLast?).getD st.responseModel ∧
      (lines.foldl aggLine st).responseCreated =
        ((observedCreated lines).getLast?).getD st.responseCreated := by
  intro lines
  induction lines with
  | nil =>
    intro st
    refine ⟨?_, ?_, rfl, rfl, rfl, rfl, rfl⟩
    · show st.content = st.content ++ String.join ([].flatMap lineContents)
      rw [List.flatMap_nil, show String.join [] = "" from rfl,
        String.append_empty]
    · show st.reasoningContent =
        st.reasoningContent ++ String.join ([].flatMap lineReasonings)
      rw [List.flatMap_nil, show String.join [] = "" from rfl,
        String.append_empty]
  | cons line rest ih =>
    intro st
    cases line with
    | blank =>
      simpa [aggLine, observedFinishes, observedUsages, observedIds,
        observedModels, observedCreated, lineContents, lineReasonings]
        using ih st
    | comment =>
      simpa [aggLine, observedFinishes, observedUsages, observedIds,
        observedModels, observedCreated, lineContents, lineReasonings]
        using ih st
    | notData =>
      simpa [aggLine, observedFinishes, observedUsages, observedIds,
        observedModels, observedCreated, lineContents, lineReasonings]
        using ih st
    | doneMark =>
      simpa [aggLine, observedFinishes, observedUsages, observedIds,
        observedModels, observedCreated, lineContents, lineReasonings]
        using ih st
    | malformed =>
      simpa [aggLine, observedFinishes, observedUsages, observedIds,
        observedModels, observedCreated, lineContents, lineReasonings]
        using ih st
    | chunk c =>
      have haggl : aggLine st (.chunk c) =
          c.choices.foldl aggChoice (aggMeta st c) := rfl
      obtain ⟨M1, M2, M3, M4, M5, M6, M7⟩ := aggMeta_spec st c
      obtain ⟨F1, F2, F3, F4, F5, F6, F7⟩ :=
        foldChoices_spec c.choices (aggMeta st c)
      obtain ⟨I1, I2, I3, I4, I5, I6, I7⟩ :=
        ih (c.choices.foldl aggChoice (aggMeta st c))
      rw [List.foldl_cons, haggl]
      refine ⟨?_, ?_, ?_, ?_, ?_, ?_, ?_⟩
      · rw [I1, F5, M1]
        rw [show (SseLine.chunk c :: rest).flatMap lineContents =
          (c.choices.filterMap fun ch => ch.delta.bind OaDelta.content) ++
            rest.flatMap lineContents from rfl]
        rw [join_append, String.append_assoc]
      · rw [I2, F6, M2]
        rw [show (SseLine.chunk c :: rest).flatMap lineReasonings =
          (c.choices.filterMap fun ch => ch.delta.bind OaDelta.reasoning_content)
            ++ rest.flatMap lineReasonings from rfl]
        rw [join_append, String.append_assoc]
      · rw [I3, F7, M3]
        rw [show observedFinishes (SseLine.chunk c :: rest) =
          (c.choices.filterMap OaChoice.finish_reason) ++
            observedFinishes rest from rfl]
        rw [getLast?_append_or]
      · rw [I4, F4, M7]
        have hobs : observedUsages (SseLine.chunk c :: rest) =
            (match c.usage with
             | some u => u :: observedUsages rest
             | none => observedUsages rest) := by
          rcases hu : c.usage with _ | u <;>
            simp [observedUsages, List.filterMap_cons, hu]
        rw [hobs, toListCons_getLast?_or]
      · rw [I5, F1, M4]
        rcases hid : c.id with _ | i
        · have hobs : observedIds (SseLine.chunk c :: rest) =
              observedIds rest := by
            simp [observedIds, List.filterMap_cons, hid]
          rw [hobs]
          rfl
        · by_cases hi : i = ""
          · have hobs : observedIds (SseLine.chunk c :: rest) =
                observedIds rest := by
              simp [observedIds, List.filterMap_cons, hid, hi]
            rw [hobs]
            simp [hi]
          · have hobs : observedIds (SseLine.chunk c :: rest) =
                i :: observedIds rest := by
              simp [observedIds, List.filterMap_cons, hid, hi]
            rw [hobs, cons_getLast?_getD]
            simp [hi]
      · rw [I6, F2, M5]
        rcases hm : c.model with _ | m
        · have hobs : observedModels (SseLine.chunk c :: rest) =
              observedModels rest := by
            simp [observedModels, List.filterMap_cons, hm]
          rw [hobs]
          rfl
        · by_cases hme : m = ""
          · have hobs : observedModels (SseLine.chunk c :: rest) =
                observedModels rest := by
              simp [observedModels, List.filterMap_cons, hm, hme]
            rw [hobs]
            simp [hme]
          · have hobs : observedModels (SseLine.chunk c :: rest) =
                m :: observedModels rest := by
              simp [observedModels, List.filterMap_cons, hm, hme]
            rw [hobs, cons_getLast?_getD]
            simp [hme]
      · rw [I7, F3, M6]
        rcases hcr : c.created with _ | t
        · have hobs : observedCreated (SseLine.chunk c :: rest) =
              observedCreated rest := by
            simp [observedCreated, List.filterMap_cons, hcr]
          rw [hobs]
          rfl
        · have hobs : observedCreated (SseLine.chunk c :: rest) =
              t :: observedCreated rest := by
            simp [observedCreated, List.filterMap_cons, hcr]
          rw [hobs, cons_getLast?_getD]
          rfl

end WebProxyApi.ChatDispatch

namespace WebProxyApi.ChatDispatch

theorem observedIds_ne_empty {U : Type} (lines : List (SseLine U)) :
    ∀ i ∈ observedIds lines, i ≠ "" := by
  intro i hi
  unfold observedIds at hi
  rw [List.mem_filterMap] at hi
  obtain ⟨l, _, hl⟩ := hi
  rcases l with _ | _ | _ | _ | _ | c
  · simp at hl
  · simp at hl
  · simp at hl
  · simp at hl
  · simp at hl
  · simp only [] at hl
    rcases hj : c.id with _ | j
    · rw [hj] at hl
      simp at hl
    · rw [hj] at hl
      by_cases hj0 : j = ""
      · simp [hj0] at hl
      · simp [hj0] at hl
        rw [← hl]
        exact hj0
end WebProxyApi.ChatDispatch

namespace WebProxyApi

/-- **C5**: aggregating an OpenAI SSE stream for a `stream=false` request
yields one completion whose `content` is the ordered concatenation of all
`delta.content` values and whose `reasoning_content` is the ordered
concatenation of all `delta.reasoning_content` values (the field is omitted
when that concatenation is empty), and which keeps the final
`finish_reason` (defaulting to `"stop"`), the last `usage`, the last
non-empty `id` (defaulting to `chatcmpl-<created>`) and the last non-empty
`model` (defaulting to the requested model) observed on the stream. -/
theorem C5_aggregateSse_spec {U : Type} (middleModel : String)
    (nowSeconds : Int) (lines : List (ChatDispatch.SseLine U)) :
    (ChatDispatch.aggregateSseToOpenAICompletion middleModel nowSeconds
        lines).content =
      String.join (lines.flatMap ChatDispatch.lineContents) ∧
    (ChatDispatch.aggregateSseToOpenAICompletion middleModel nowSeconds
        lines).reasoning_content =
      (if String.join (lines.flatMap ChatDispatch.lineReasonings) = ""
       then none
       else some (String.join (lines.flatMap ChatDispatch.lineReasonings))) ∧
    (ChatDispatch.aggregateSseToOpenAICompletion middleModel nowSeconds
        lines).finish_reason =
      some (((ChatDispatch.observedFinishes lines).getLast?).getD "stop") ∧
    (ChatDispatch.aggregateSseToOpenAICompletion middleModel nowSeconds
        lines).usage =
      (ChatDispatch.observedUsages lines).getLast? ∧
    (ChatDispatch.aggregateSseToOpenAICompletion middleModel nowSeconds
        lines).model =
      ((ChatDispatch.observedModels lines).getLast?).getD middleModel ∧
    (ChatDispatch.aggregateSseToOpenAICompletion middleModel nowSeconds
        lines).created =
      ((ChatDispatch.observedCreated lines).getLast?).getD nowSeconds ∧
    (ChatDispatch.aggregateSseToOpenAICompletion middleModel nowSeconds
        lines).id =
      (match (ChatDispatch.observedIds lines).getLast? with
       | some i => i
       | none =>
         "chatcmpl-" ++
           toString (((ChatDispatch.observedCreated lines).getLast?).getD
             nowSeconds)) := by
  obtain ⟨F1, F2, F3, F4, F5, F6, F7⟩ :=
    ChatDispatch.foldLines_spec lines
      (⟨"", middleModel, nowSeconds, some "stop", "", "", none⟩ :
        ChatDispatch.AggState U)
  refine ⟨?_, ?_, ?_, ?_, ?_, ?_, ?_⟩
  · show (lines.foldl ChatDispatch.aggLine _).content = _
    rw [F1]
    exact String.empty_append _
  · show (if (lines.foldl ChatDispatch.aggLine _).reasoningContent = ""
        then none
        else some (lines.foldl ChatDispatch.aggLine _).reasoningContent) = _
    rw [F2, String.empty_append]
  · show (lines.foldl ChatDispatch.aggLine _).finishReason = _
    rw [F3]
    rcases (ChatDispatch.observedFinishes lines).getLast? with _ | x <;> rfl
  · show (lines.foldl ChatDispatch.aggLine _).usage = _
    rw [F4]
    exact Option.or_none
  · show (lines.foldl ChatDispatch.aggLine _).responseModel = _
    rw [F6]
  · show (lines.foldl ChatDispatch.aggLine _).responseCreated = _
    rw [F7]
  · show (if (lines.foldl ChatDispatch.aggLine _).responseId = ""
        then "chatcmpl-" ++
          toString (lines.foldl ChatDispatch.aggLine _).responseCreated
        else (lines.foldl ChatDispatch.aggLine _).responseId) = _
    rw [F5, F7]
    rcases hid : (ChatDispatch.observedIds lines).getLast? with _ | i
    · rfl
    · have hmem : i ∈ ChatDispatch.observedIds lines := by
        obtain ⟨h, heq⟩ :=
          List.mem_getLast?_eq_getLast (Option.mem_def.mpr hid)
        rw [heq]
        exact List.getLast_mem h
      have hne : i ≠ "" :=
        ChatDispatch.observedIds_ne_empty lines i hmem
      rw [show (some i).getD "" = i from rfl, if_neg hne]

end WebProxyApi

namespace WebProxyApi.DeepSeekAdapter

theorem dsLoop_nil (ct : String → Nat) (re : Bool) (prompt : String)
    (fcs : Bool) (fullR fullC : String) :
    dsLoop ct re prompt fcs fullR fullC [] =
      dsFinishFrames ct re prompt fullR fullC := rfl

theorem dsLoop_skipLine (ct : String → Nat) (re : Bool) (prompt : String)
    (fcs : Bool) (fullR fullC : String) (rest : List (Option DSEvent)) :
    dsLoop ct re prompt fcs fullR fullC (none :: rest) =
      dsLoop ct re prompt fcs fullR fullC rest := rfl

theorem dsLoop_done (ct : String → Nat) (re : Bool) (prompt : String)
    (fcs : Bool) (fullR fullC : String) (ev : DSEvent)
    (rest : List (Option DSEvent))
    (h : ev.p = some "done" ∨ ev.v = DSVal.vstr "[DONE]") :
    dsLoop ct re prompt fcs fullR fullC (some ev :: rest) =
      dsFinishFrames ct re prompt fullR fullC := by
  simp only [dsLoop, if_pos h]

theorem dsLoop_search (ct : String → Nat) (re : Bool) (prompt : String)
    (fcs : Bool) (fullR fullC : String) (ev : DSEvent)
    (rest : List (Option DSEvent))
    (hd : ¬ (ev.p = some "done" ∨ ev.v = DSVal.vstr "[DONE]"))
    (hs : ev.p = some "response/search_status") :
    dsLoop ct re prompt fcs fullR fullC (some ev :: rest) =
      dsLoop ct re prompt fcs fullR fullC rest := by
  simp only [dsLoop, if_neg hd, if_pos hs]

theorem dsLoop_varr (ct : String → Nat) (re : Bool) (prompt : String)
    (fcs : Bool) (fullR fullC : String) (ev : DSEvent)
    (rest : List (Option DSEvent)) (items : List ArrItem)
    (hd : ¬ (ev.p = some "done" ∨ ev.v = DSVal.vstr "[DONE]"))
    (hs : ¬ ev.p = some "response/search_status")
    (hv : ev.v = DSVal.varr items) :
    dsLoop ct re prompt fcs fullR fullC (some ev :: rest) =
      (if hasFinishedSignal items then
        dsFinishFrames ct re prompt fullR fullC
       else dsLoop ct re prompt fcs fullR fullC rest) := by
  simp only [dsLoop]
  rw [if_neg hd, if_neg hs, hv]

theorem dsLoop_vnone (ct : String → Nat) (re : Bool) (prompt : String)
    (fcs : Bool) (fullR fullC : String) (ev : DSEvent)
    (rest : List (Option DSEvent))
    (hd : ¬ (ev.p = some "done" ∨ ev.v = DSVal.vstr "[DONE]"))
    (hs : ¬ ev.p = some "response/search_status")
    (hv : ev.v = DSVal.vnone) :
    dsLoop ct re prompt fcs fullR fullC (some ev :: rest) =
      dsLoop ct re prompt fcs fullR fullC rest := by
  simp only [dsLoop]
  rw [if_neg hd, if_neg hs, hv]

theorem dsLoop_vother (ct : String → Nat) (re : Bool) (prompt : String)
    (fcs : Bool) (fullR fullC : String) (ev : DSEvent)
    (rest : List (Option DSEvent))
    (hd : ¬ (ev.p = some "done" ∨ ev.v = DSVal.vstr "[DONE]"))
    (hs : ¬ ev.p = some "response/search_status")
    (hv : ev.v = DSVal.vother) :
    dsLoop ct re prompt fcs fullR fullC (some ev :: rest) =
      dsLoop ct re prompt fcs fullR fullC rest := by
  simp only [dsLoop]
  rw [if_neg hd, if_neg hs, hv]

theorem dsLoop_vstr_empty (ct : String → Nat) (re : Bool) (prompt : String)
    (fcs : Bool) (fullR fullC : String) (ev : DSEvent)
    (rest : List (Option DSEvent))
    (hd : ¬ (ev.p = some "done" ∨ ev.v = DSVal.vstr "[DONE]"))
    (hs : ¬ ev.p = some "response/search_status")
    (hv : ev.v = DSVal.vstr "") :
    dsLoop ct re prompt fcs fullR fullC (some ev :: rest) =
      dsLoop ct re prompt fcs fullR fullC rest := by
  simp only [dsLoop]
  rw [if_neg hd, if_neg hs, hv]
  simp

theorem dsLoop_vstr_think (ct : String → Nat) (re : Bool) (prompt : String)
    (fcs : Bool) (fullR fullC : String) (ev : DSEvent)
    (rest : List (Option DSEvent)) (s : String)
    (hd : ¬ (ev.p = some "done" ∨ ev.v = DSVal.vstr "[DONE]"))
    (hs : ¬ ev.p = some "response/search_status")
    (hv : ev.v = DSVal.vstr s) (hne : ¬ s = "")
    (hp : ev.p = some "response/thinking_content") :
    dsLoop ct re prompt fcs fullR fullC (some ev :: rest) =
      (if re then
        WebProxyApi.Sse.Frame.chunk
            ⟨if fcs then none else some "assistant", none, some s⟩ none none ::
          dsLoop ct re prompt true (fullR ++ s) fullC rest
       else dsLoop ct re prompt true fullR fullC rest) := by
  simp only [dsLoop]
  rw [if_neg hd, if_neg hs, hv]
  simp only [if_neg hne, if_pos hp]

theorem dsLoop_vstr_content (ct : String → Nat) (re : Bool) (prompt : String)
    (fcs : Bool) (fullR fullC : String) (ev : DSEvent)
    (rest : List (Option DSEvent)) (s : String)
    (hd : ¬ (ev.p = some "done" ∨ ev.v = DSVal.vstr "[DONE]"))
    (hs : ¬ ev.p = some "response/search_status")
    (hv : ev.v = DSVal.vstr s) (hne : ¬ s = "")
    (hp : ¬ ev.p = some "response/thinking_content") :
    dsLoop ct re prompt fcs fullR fullC (some ev :: rest) =
      WebProxyApi.Sse.Frame.chunk
          ⟨if fcs then none else some "assistant", some s, none⟩ none none ::
        dsLoop ct re prompt true fullR (fullC ++ s) rest := by
  simp only [dsLoop]
  rw [if_neg hd, if_neg hs, hv]
  simp only [if_neg hne, if_neg hp]

end WebProxyApi.DeepSeekAdapter

namespace WebProxyApi.DeepSeekAdapter

theorem mem_dsFinishFrames_role (ct : String → Nat) (re : Bool)
    (prompt fullR fullC : String) (f : WebProxyApi.Sse.Frame DsUsage)
    (hf : f ∈ dsFinishFrames ct re prompt fullR fullC) :
    WebProxyApi.Sse.frameRole f = none := by
  simp only [dsFinishFrames, List.mem_cons, List.not_mem_nil, or_false] at hf
  rcases hf with h | h <;> subst h <;> rfl

theorem dsLoop_role_true (ct : String → Nat) (re : Bool) (prompt : String) :
    ∀ (events : List (Option DSEvent)) (fullR fullC : String)
      (f : WebProxyApi.Sse.Frame DsUsage),
      f ∈ dsLoop ct re prompt true fullR fullC events →
      WebProxyApi.Sse.frameRole f = none := by
  intro events
  induction events with
  | nil =>
    intro fullR fullC f hf
    rw [dsLoop_nil] at hf
    exact mem_dsFinishFrames_role ct re prompt fullR fullC f hf
  | cons line rest ih =>
    intro fullR fullC f hf
    cases line with
    | none =>
      rw [dsLoop_skipLine] at hf
      exact ih fullR fullC f hf
    | some ev =>
      by_cases hd : ev.p = some "done" ∨ ev.v = DSVal.vstr "[DONE]"
      · rw [dsLoop_done ct re prompt true fullR fullC ev rest hd] at hf
        exact mem_dsFinishFrames_role ct re prompt fullR fullC f hf
      · by_cases hs : ev.p = some "response/search_status"
        · rw [dsLoop_search ct re prompt true fullR fullC ev rest hd hs] at hf
          exact ih fullR fullC f hf
        · rcases hv : ev.v with s | items | _ | _
          · by_cases hne : s = ""
            · subst hne
              rw [dsLoop_vstr_empty ct re prompt true fullR fullC ev rest hd hs
                hv] at hf
              exact ih fullR fullC f hf
            · by_cases hp : ev.p = some "response/thinking_content"
              · rw [dsLoop_vstr_think ct re prompt true fullR fullC ev rest s
                  hd hs hv hne hp] at hf
                by_cases hre : re = true
                · rw [if_pos hre] at hf
                  rcases List.mem_cons.mp hf with h | h
                  · subst h
                    rfl
                  · exact ih _ fullC f h
                · rw [if_neg hre] at hf
                  exact ih fullR fullC f hf
              · rw [dsLoop_vstr_content ct re prompt true fullR fullC ev rest s
                  hd hs hv hne hp] at hf
                rcases List.mem_cons.mp hf with h | h
                · subst h
                  rfl
                · exact ih fullR _ f h
          · rw [dsLoop_varr ct re prompt true fullR fullC ev rest items hd hs
              hv] at hf
            by_cases hfin : hasFinishedSignal items = true
            · rw [if_pos hfin] at hf
              exact mem_dsFinishFrames_role ct re prompt fullR fullC f hf
            · rw [if_neg hfin] at hf
              exact ih fullR fullC f hf
          · rw [dsLoop_vnone ct re prompt true fullR fullC ev rest hd hs hv]
              at hf
            exact ih fullR fullC f hf
          · rw [dsLoop_vother ct re prompt true fullR fullC ev rest hd hs hv]
              at hf
            exact ih fullR fullC f hf

end WebProxyApi.DeepSeekAdapter

namespace WebProxyApi.DeepSeekAdapter

theorem dsLoop_role_drop_one (ct : String → Nat) (re : Bool)
    (prompt : String) :
    ∀ (events : List (Option DSEvent)) (fullR fullC : String)
      (f : WebProxyApi.Sse.Frame DsUsage),
      f ∈ (dsLoop ct re prompt false fullR fullC events).drop 1 →
      WebProxyApi.Sse.frameRole f = none := by
  intro events
  induction events with
  | nil =>
    intro fullR fullC f hf
    rw [dsLoop_nil] at hf
    simp only [dsFinishFrames, List.drop_succ_cons, List.drop_zero] at hf
    rcases List.mem_cons.mp hf with h | h
    · subst h
      rfl
    · cases h
  | cons line rest ih =>
    intro fullR fullC f hf
    cases line with
    | none =>
      rw [dsLoop_skipLine] at hf
      exact ih fullR fullC f hf
    | some ev =>
      by_cases hd : ev.p = some "done" ∨ ev.v = DSVal.vstr "[DONE]"
      · rw [dsLoop_done ct re prompt false fullR fullC ev rest hd] at hf
        simp only [dsFinishFrames, List.drop_succ_cons, List.drop_zero] at hf
        rcases List.mem_cons.mp hf with h | h
        · subst h
          rfl
        · cases h
      · by_cases hs : ev.p = some "response/search_status"
        · rw [dsLoop_search ct re prompt false fullR fullC ev rest hd hs] at hf
          exact ih fullR fullC f hf
        · rcases hv : ev.v with s | items | _ | _
          · by_cases hne : s = ""
            · subst hne
              rw [dsLoop_vstr_empty ct re prompt false fullR fullC ev rest hd
                hs hv] at hf
              exact ih fullR fullC f hf
            · by_cases hp : ev.p = some "response/thinking_content"
              · rw [dsLoop_vstr_think ct re prompt false fullR fullC ev rest s
                  hd hs hv hne hp] at hf
                by_cases hre : re = true
                · rw [if_pos hre] at hf
                  rw [List.drop_succ_cons, List.drop_zero] at hf
                  exact dsLoop_role_true ct re prompt rest (fullR ++ s) fullC
                    f hf
                · rw [if_neg hre] at hf
                  exact dsLoop_role_true ct re prompt rest fullR fullC f
                    (List.mem_of_mem_drop hf)
              · rw [dsLoop_vstr_content ct re prompt false fullR fullC ev rest
                  s hd hs hv hne hp] at hf
                rw [List.drop_succ_cons, List.drop_zero] at hf
                exact dsLoop_role_true ct re prompt rest fullR (fullC ++ s) f hf
          · rw [dsLoop_varr ct re prompt false fullR fullC ev rest items hd hs
              hv] at hf
            by_cases hfin : hasFinishedSignal items = true
            · rw [if_pos hfin] at hf
              simp only [dsFinishFrames, List.drop_succ_cons, List.drop_zero]
                at hf
              rcases List.mem_cons.mp hf with h | h
              · subst h
                rfl
              · cases h
            · rw [if_neg hfin] at hf
              exact ih fullR fullC f hf
          · rw [dsLoop_vnone ct re prompt false fullR fullC ev rest hd hs hv]
              at hf
            exact ih fullR fullC f hf
          · rw [dsLoop_vother ct re prompt false fullR fullC ev rest hd hs hv]
              at hf
            exact ih fullR fullC f hf

theorem dsLoop_terminal (ct : String → Nat) (re : Bool) (prompt : String) :
    ∀ (events : List (Option DSEvent)) (fcs : Bool) (fullR fullC : String),
      ∃ body u,
        dsLoop ct re prompt fcs fullR fullC events =
          body ++ [WebProxyApi.Sse.Frame.chunk WebProxyApi.Sse.emptyDelta
            (some "stop") (some u), WebProxyApi.Sse.Frame.doneMark] ∧
        ∀ f ∈ body, ∃ d, f = WebProxyApi.Sse.Frame.chunk d none none := by
  intro events
  induction events with
  | nil =>
    intro fcs fullR fullC
    exact ⟨[], dsUsage ct re prompt fullR fullC, rfl, by simp⟩
  | cons line rest ih =>
    intro fcs fullR fullC
    cases line with
    | none =>
      rw [dsLoop_skipLine]
      exact ih fcs fullR fullC
    | some ev =>
      by_cases hd : ev.p = some "done" ∨ ev.v = DSVal.vstr "[DONE]"
      · rw [dsLoop_done ct re prompt fcs fullR fullC ev rest hd]
        exact ⟨[], dsUsage ct re prompt fullR fullC, rfl, by simp⟩
      · by_cases hs : ev.p = some "response/search_status"
        · rw [dsLoop_search ct re prompt fcs fullR fullC ev rest hd hs]
          exact ih fcs fullR fullC
        · rcases hv : ev.v with s | items | _ | _
          · by_cases hne : s = ""
            · subst hne
              rw [dsLoop_vstr_empty ct re prompt fcs fullR fullC ev rest hd hs
                hv]
              exact ih fcs fullR fullC
            · by_cases hp : ev.p = some "response/thinking_content"
              · rw [dsLoop_vstr_think ct re prompt fcs fullR fullC ev rest s hd
                  hs hv hne hp]
                by_cases hre : re = true
                · rw [if_pos hre]
                  obtain ⟨body, u, heq, hb⟩ := ih true (fullR ++ s) fullC
                  refine ⟨WebProxyApi.Sse.Frame.chunk
                    ⟨if fcs then none else some "assistant", none, some s⟩
                    none none :: body, u, ?_, ?_⟩
                  · rw [heq, List.cons_append]
                  · intro f hf
                    rcases List.mem_cons.mp hf with h | h
                    · exact ⟨_, h⟩
                    · exact hb f h
                · rw [if_neg hre]
                  exact ih true fullR fullC
              · rw [dsLoop_vstr_content ct re prompt fcs fullR fullC ev rest s
                  hd hs hv hne hp]
                obtain ⟨body, u, heq, hb⟩ := ih true fullR (fullC ++ s)
                refine ⟨WebProxyApi.Sse.Frame.chunk
                  ⟨if fcs then none else some "assistant", some s, none⟩
                  none none :: body, u, ?_, ?_⟩
                · rw [heq, List.cons_append]
                · intro f hf
                  rcases List.mem_cons.mp hf with h | h
                  · exact ⟨_, h⟩
                  · exact hb f h
          · rw [dsLoop_varr ct re prompt fcs fullR fullC ev rest items hd hs hv]
            by_cases hfin : hasFinishedSignal items = true
            · rw [if_pos hfin]
              exact ⟨[], dsUsage ct re prompt fullR fullC, rfl, by simp⟩
            · rw [if_neg hfin]
              exact ih fcs fullR fullC
          · rw [dsLoop_vnone ct re prompt fcs fullR fullC ev rest hd hs hv]
            exact ih fcs fullR fullC
          · rw [dsLoop_vother ct re prompt fcs fullR fullC ev rest hd hs hv]
            exact ih fcs fullR fullC

end WebProxyApi.DeepSeekAdapter

namespace WebProxyApi.GrokStream

theorem streamGrok_video {U : Type} (tags : List String) (sh : Bool)
    (vc : String → String) (ic : List String → String) (resp : GrokRespLine)
    (rest : List (Option GrokRespLine)) (hv : optTruthy resp.videoUrl = true) :
    streamGrok (U := U) tags sh vc ic (some resp :: rest) =
      [makeChunk (vc (resp.videoUrl.getD "")) (some "stop"),
        WebProxyApi.Sse.Frame.doneMark] := by
  simp only [streamGrok, hv, if_true]

theorem streamGrok_image {U : Type} (tags : List String) (sh : Bool)
    (vc : String → String) (ic : List String → String) (resp : GrokRespLine)
    (rest : List (Option GrokRespLine))
    (hv : ¬ optTruthy resp.videoUrl = true)
    (hi : resp.generatedImageUrls.isSome = true) :
    streamGrok (U := U) tags sh vc ic (some resp :: rest) =
      [makeChunk (ic (resp.generatedImageUrls.getD [])) (some "stop"),
        WebProxyApi.Sse.Frame.doneMark] := by
  simp only [streamGrok]
  rw [if_neg hv, if_pos hi]

theorem streamGrok_tokens {U : Type} (tags : List String) (sh : Bool)
    (vc : String → String) (ic : List String → String) (resp : GrokRespLine)
    (rest : List (Option GrokRespLine))
    (hv : ¬ optTruthy resp.videoUrl = true)
    (hi : ¬ resp.generatedImageUrls.isSome = true) :
    streamGrok (U := U) tags sh vc ic (some resp :: rest) =
      (match resp.token with
       | .absent => streamGrok tags sh vc ic rest
       | .arr => streamGrok tags sh vc ic rest
       | .str t =>
         if t = "" then streamGrok tags sh vc ic rest
         else if tags.any fun tag => jsIncludes t tag then
           streamGrok tags sh vc ic rest
         else if !sh && resp.isThinking then streamGrok tags sh vc ic rest
         else makeChunk t none :: streamGrok tags sh vc ic rest) := by
  simp only [streamGrok]
  rw [if_neg hv, if_neg hi]

theorem streamGrok_terminal {U : Type} (tags : List String) (sh : Bool)
    (vc : String → String) (ic : List String → String) :
    ∀ lines : List (Option GrokRespLine),
      ∃ body d,
        streamGrok (U := U) tags sh vc ic lines =
          body ++ [WebProxyApi.Sse.Frame.chunk d (some "stop") none,
            WebProxyApi.Sse.Frame.doneMark] ∧
        ∀ f ∈ body, ∃ d2, f = WebProxyApi.Sse.Frame.chunk d2 none none := by
  intro lines
  induction lines with
  | nil =>
    refine ⟨[], WebProxyApi.Sse.emptyDelta, ?_, by simp⟩
    rfl
  | cons line rest ih =>
    cases line with
    | none => exact ih
    | some resp =>
      by_cases hv : optTruthy resp.videoUrl = true
      · rw [streamGrok_video tags sh vc ic resp rest hv]
        refine ⟨[], if vc (resp.videoUrl.getD "") = "" then WebProxyApi.Sse.emptyDelta
          else ⟨some "assistant", some (vc (resp.videoUrl.getD "")), none⟩, ?_, by simp⟩
        rfl
      · by_cases hi : resp.generatedImageUrls.isSome = true
        · rw [streamGrok_image tags sh vc ic resp rest hv hi]
          refine ⟨[], if ic (resp.generatedImageUrls.getD []) = "" then WebProxyApi.Sse.emptyDelta
            else ⟨some "assistant", some (ic (resp.generatedImageUrls.getD [])), none⟩, ?_, by simp⟩
          rfl
        · rw [streamGrok_tokens tags sh vc ic resp rest hv hi]
          rcases ht : resp.token with _ | t | _
          · exact ih
          · by_cases hte : t = ""
            · subst hte
              simp only [if_pos rfl]
              exact ih
            · rw [show (match GrokTokenVal.str t with
                | GrokTokenVal.absent => streamGrok (U := U) tags sh vc ic rest
                | GrokTokenVal.arr => streamGrok tags sh vc ic rest
                | GrokTokenVal.str t =>
                  if t = "" then streamGrok tags sh vc ic rest
                  else if tags.any fun tag => jsIncludes t tag then
                    streamGrok tags sh vc ic rest
                  else if !sh && resp.isThinking then
                    streamGrok tags sh vc ic rest
                  else makeChunk t none :: streamGrok tags sh vc ic rest) =
                (if t = "" then streamGrok (U := U) tags sh vc ic rest
                 else if tags.any fun tag => jsIncludes t tag then
                   streamGrok tags sh vc ic rest
                 else if !sh && resp.isThinking then
                   streamGrok tags sh vc ic rest
                 else makeChunk t none :: streamGrok tags sh vc ic rest)
                from rfl]
              rw [if_neg hte]
              by_cases hfilt : (tags.any fun tag => jsIncludes t tag) = true
              · rw [if_pos hfilt]
                exact ih
              · rw [if_neg hfilt]
                by_cases hth : (!sh && resp.isThinking) = true
                · rw [if_pos hth]
                  exact ih
                · rw [if_neg hth]
                  obtain ⟨body, d, heq, hb⟩ := ih
                  refine ⟨makeChunk t none :: body, d, ?_, ?_⟩
                  · rw [heq, List.cons_append]
                  · intro f hf
                    rcases List.mem_cons.mp hf with h | h
                    · subst h
                      unfold makeChunk
                      exact ⟨_, rfl⟩
                    · exact hb f h
          · exact ih

theorem streamGrok_roleContent {U : Type} (tags : List String) (sh : Bool)
    (vc : String → String) (ic : List String → String) :
    ∀ (lines : List (Option GrokRespLine)) (f : WebProxyApi.Sse.Frame U),
      f ∈ streamGrok tags sh vc ic lines →
      ∀ dd fr u, f = WebProxyApi.Sse.Frame.chunk dd fr u →
        (dd.role = some "assistant" ∧ ∃ s, dd.content = some s ∧ ¬ s = "") ∨
        (dd.role = none ∧ dd.content = none) := by
  intro lines
  have hmk : ∀ (content : String) (fin : Option String) dd fr u,
      makeChunk (U := U) content fin = WebProxyApi.Sse.Frame.chunk dd fr u →
      (dd.role = some "assistant" ∧ ∃ s, dd.content = some s ∧ ¬ s = "") ∨
      (dd.role = none ∧ dd.content = none) := by
    intro content fin dd fr u h
    unfold makeChunk at h
    by_cases hc : content = ""
    · rw [if_pos hc] at h
      cases h
      right
      exact ⟨rfl, rfl⟩
    · rw [if_neg hc] at h
      cases h
      left
      exact ⟨rfl, content, rfl, hc⟩
  induction lines with
  | nil =>
    intro f hf dd fr u hfq
    rcases List.mem_cons.mp hf with h | h
    · subst h
      exact hmk "" (some "stop") dd fr u hfq
    · simp at h
      subst h
      cases hfq
  | cons line rest ih =>
    intro f hf dd fr u hfq
    cases line with
    | none => exact ih f hf dd fr u hfq
    | some resp =>
      by_cases hv : optTruthy resp.videoUrl = true
      · rw [streamGrok_video tags sh vc ic resp rest hv] at hf
        rcases List.mem_cons.mp hf with h | h
        · subst h
          exact hmk _ (some "stop") dd fr u hfq
        · simp at h
          subst h
          cases hfq
      · by_cases hi : resp.generatedImageUrls.isSome = true
        · rw [streamGrok_image tags sh vc ic resp rest hv hi] at hf
          rcases List.mem_cons.mp hf with h | h
          · subst h
            exact hmk _ (some "stop") dd fr u hfq
          · simp at h
            subst h
            cases hfq
        · rw [streamGrok_tokens tags sh vc ic resp rest hv hi] at hf
          rcases ht : resp.token with _ | t | _
          · rw [ht] at hf
            exact ih f hf dd fr u hfq
          · rw [ht] at hf
            simp only [] at hf
            by_cases hte : t = ""
            · rw [if_pos hte] at hf
              exact ih f hf dd fr u hfq
            · rw [if_neg hte] at hf
              by_cases hfilt : (tags.any fun tag => jsIncludes t tag) = true
              · rw [if_pos hfilt] at hf
                exact ih f hf dd fr u hfq
              · rw [if_neg hfilt] at hf
                by_cases hth : (!sh && resp.isThinking) = true
                · rw [if_pos hth] at hf
                  exact ih f hf dd fr u hfq
                · rw [if_neg hth] at hf
                  rcases List.mem_cons.mp hf with h | h
                  · subst h
                    exact hmk t none dd fr u hfq
                  · exact ih f h dd fr u hfq
          · rw [ht] at hf
            exact ih f hf dd fr u hfq

end WebProxyApi.GrokStream

namespace WebProxyApi

/-- C2 counterexample: the claimed "role exactly once, at the first
non-empty delta" fails on both adapters.  (a) Grok: two non-empty token
lines produce two `role: "assistant"` frames, because `makeChunk` attaches
the role to every non-empty content chunk.  (b) DeepSeek with reasoning
disabled: a thinking fragment followed by a content fragment produces zero
role frames, because the transform sets `firstChunkSent = true` before
branching, so the dropped thinking fragment consumes the role marker. -/
theorem C2_role_counterexample :
    WebProxyApi.Sse.roleCount
      (WebProxyApi.GrokStream.streamGrok (U := WebProxyApi.DeepSeekAdapter.DsUsage)
        WebProxyApi.GrokStream.defaultFilteredTags true (fun v => v) (fun _ => "img")
        [some ⟨none, none, .str "a", false⟩, some ⟨none, none, .str "b", false⟩]) = 2
    ∧ WebProxyApi.Sse.roleCount
      (WebProxyApi.DeepSeekAdapter.dsHandlerStream (fun s => s.length) false "p"
        [some ⟨some "response/thinking_content", .vstr "x"⟩,
         some ⟨none, .vstr "y"⟩]) = 0 := by
  constructor <;> rfl

/-- C2 (amended): for every upstream event sequence, (a) the DeepSeek
transform puts `role: "assistant"` on at most one frame — only its very
first frame can carry a role — and ends with an empty-delta chunk carrying
`finish_reason: "stop"` and a usage block, immediately followed by
`data: [DONE]`, every earlier frame being a chunk with no finish reason;
(b) the Grok transform attaches `role: "assistant"` together with a
non-empty `content` to every content chunk (all other deltas are role- and
content-free), and ends with a chunk carrying `finish_reason: "stop"`
immediately followed by `data: [DONE]`, every earlier frame being a chunk
with no finish reason. -/
theorem C2_stream_role_and_termination
    (ct : String → Nat) (re : Bool) (prompt : String)
    (events : List (Option WebProxyApi.DeepSeekAdapter.DSEvent))
    (tags : List String) (sh : Bool) (vc : String → String)
    (ic : List String → String)
    (lines : List (Option WebProxyApi.GrokStream.GrokRespLine)) :
    (∀ f ∈ (WebProxyApi.DeepSeekAdapter.dsHandlerStream ct re prompt events).drop 1,
        WebProxyApi.Sse.frameRole f = none) ∧
    (∃ body u,
        WebProxyApi.DeepSeekAdapter.dsHandlerStream ct re prompt events =
          body ++ [WebProxyApi.Sse.Frame.chunk WebProxyApi.Sse.emptyDelta
            (some "stop") (some u), WebProxyApi.Sse.Frame.doneMark] ∧
        ∀ f ∈ body, ∃ d, f = WebProxyApi.Sse.Frame.chunk d none none) ∧
    (∀ f ∈ WebProxyApi.GrokStream.streamGrok
        (U := WebProxyApi.DeepSeekAdapter.DsUsage) tags sh vc ic lines,
        ∀ d fr u, f = WebProxyApi.Sse.Frame.chunk d fr u →
          (d.role = some "assistant" ∧ ∃ s, d.content = some s ∧ ¬ s = "") ∨
          (d.role = none ∧ d.content = none)) ∧
    (∃ body d,
        WebProxyApi.GrokStream.streamGrok
          (U := WebProxyApi.DeepSeekAdapter.DsUsage) tags sh vc ic lines =
          body ++ [WebProxyApi.Sse.Frame.chunk d (some "stop") none,
            WebProxyApi.Sse.Frame.doneMark] ∧
        ∀ f ∈ body, ∃ d2, f = WebProxyApi.Sse.Frame.chunk d2 none none) := by
  refine ⟨?_, ?_, ?_, ?_⟩
  · intro f hf
    exact WebProxyApi.DeepSeekAdapter.dsLoop_role_drop_one ct re prompt
      events "" "" f hf
  · exact WebProxyApi.DeepSeekAdapter.dsLoop_terminal ct re prompt events false "" ""
  · intro f hf d fr u hfq
    exact WebProxyApi.GrokStream.streamGrok_roleContent tags sh vc ic
      lines f hf d fr u hfq
  · exact WebProxyApi.GrokStream.streamGrok_terminal tags sh vc ic lines

end WebProxyApi

namespace WebProxyApi.CompletionsRoute

theorem processContent_citation (te : Bool)
    (st : StreamState) (p : Option String) (s : String)
    (hs : WebProxyApi.strStartsWith s "[citation:" = true) :
    (streamLine.processContent true te st p s).2.1.finalText =
      st.finalText ∧
    (streamLine.processContent true te st p s).2.1.finalThinking =
      st.finalThinking ∧
    ∀ f ∈ (streamLine.processContent true te st p s).1,
      ∀ d fr u, f = WebProxyApi.Sse.Frame.chunk d fr u →
        (d.content = none ∨ d.content = some "") ∧
        (d.reasoning_content = none ∨ d.reasoning_content = some "") := by
  simp only [streamLine.processContent, hs, Bool.true_and, if_true]
  by_cases hp : p = some "response/thinking_content" <;>
    by_cases hte : te = true <;>
      simp [hp, hte, String.append_empty] <;>
        split_ifs <;>
          simp_all

end WebProxyApi.CompletionsRoute

namespace WebProxyApi.CompletionsRoute

/-- C6 counterexample: the `DeepSeekHandler` stream transform cited by the
claim applies no citation filter at all — a content fragment
`"[citation:1]"` is emitted verbatim as `delta.content` and accumulated
into `fullContent` (visible in the usage block: 12 content tokens under a
per-character counter).  The `[citation:` filter exists only in the legacy
`/v1/chat/completions` route. -/
theorem C6_citation_counterexample :
    WebProxyApi.DeepSeekAdapter.dsHandlerStream (fun s => s.data.length) false "p"
      [some ⟨none, WebProxyApi.DeepSeekAdapter.DSVal.vstr "[citation:1]"⟩] =
      [WebProxyApi.Sse.Frame.chunk ⟨some "assistant", some "[citation:1]", none⟩
        none none,
       WebProxyApi.Sse.Frame.chunk WebProxyApi.Sse.emptyDelta (some "stop")
         (some ⟨1, 12, 13, 0, 12⟩),
       WebProxyApi.Sse.Frame.doneMark] := by rfl

/-- C6 (amended): the citation filter lives in the legacy
`/v1/chat/completions` route, not in the `DeepSeekHandler` transform.  In
that route with `search_enabled`, a content fragment starting with
`[citation:` contributes nothing: the non-stream loop skips it outright,
and the streaming path empties it — the accumulators are unchanged and any
frame the line emits carries at most an empty `content` /
`reasoning_content`. -/
theorem C6_citation_spec
    (p : Option String) (s : String)
    (hs : WebProxyApi.strStartsWith s "[citation:" = true)
    (ft fth : String) (rest : List RouteLine)
    (te : Bool) (pt : Nat) (est : String → Nat) (st : StreamState) :
    nonStreamAgg true ft fth (RouteLine.chunk p (RouteVal.vstr s) :: rest) =
      nonStreamAgg true ft fth rest ∧
    (streamLine true te pt est st
      (RouteLine.chunk p (RouteVal.vstr s))).2.1.finalText = st.finalText ∧
    (streamLine true te pt est st
      (RouteLine.chunk p (RouteVal.vstr s))).2.1.finalThinking =
      st.finalThinking ∧
    ∀ f ∈ (streamLine true te pt est st
        (RouteLine.chunk p (RouteVal.vstr s))).1,
      ∀ d fr u, f = WebProxyApi.Sse.Frame.chunk d fr u →
        (d.content = none ∨ d.content = some "") ∧
        (d.reasoning_content = none ∨ d.reasoning_content = some "") := by
  have hne : s ≠ "" := by
    intro he
    subst he
    exact absurd hs (by decide)
  have hstep : streamLine true te pt est st
      (RouteLine.chunk p (RouteVal.vstr s)) =
      streamLine.processContent true te st p s := by
    simp only [streamLine]
    rw [if_neg hne]
  obtain ⟨h1, h2, h3⟩ := processContent_citation te st p s hs
  refine ⟨?_, ?_, ?_, ?_⟩
  · simp only [nonStreamAgg]
    rw [if_neg hne]
    simp only [hs, Bool.true_and, if_true]
  · rw [hstep]
    exact h1
  · rw [hstep]
    exact h2
  · rw [hstep]
    exact h3

/-- C6 at a concrete input: the citation fragment `"[citation:1]"` with
`search_enabled` is skipped by the non-stream loop and emptied by the
streaming path. -/
theorem C6_citation_spec_witness :
    WebProxyApi.strStartsWith "[citation:1]" "[citation:" = true ∧
    (nonStreamAgg true "T" "H"
        [RouteLine.chunk none (RouteVal.vstr "[citation:1]")] =
      nonStreamAgg true "T" "H" [] ∧
    (streamLine true true 0 (fun s => s.data.length) ⟨false, "T", "H"⟩
      (RouteLine.chunk none (RouteVal.vstr "[citation:1]"))).2.1.finalText =
      (⟨false, "T", "H"⟩ : StreamState).finalText ∧
    (streamLine true true 0 (fun s => s.data.length) ⟨false, "T", "H"⟩
      (RouteLine.chunk none (RouteVal.vstr "[citation:1]"))).2.1.finalThinking =
      (⟨false, "T", "H"⟩ : StreamState).finalThinking ∧
    ∀ f ∈ (streamLine true true 0 (fun s => s.data.length) ⟨false, "T", "H"⟩
        (RouteLine.chunk none (RouteVal.vstr "[citation:1]"))).1,
      ∀ d fr u, f = WebProxyApi.Sse.Frame.chunk d fr u →
        (d.content = none ∨ d.content = some "") ∧
        (d.reasoning_content = none ∨ d.reasoning_content = some "")) :=
  ⟨by decide,
    C6_citation_spec none "[citation:1]" (by decide) "T" "H" [] true 0
      (fun s => s.data.length) ⟨false, "T", "H"⟩⟩

end WebProxyApi.CompletionsRoute

namespace WebProxyApi.ProxyPool

theorem strStartsWith_append_left (a r b : String)
    (h : b.data.length ≤ a.data.length) :
    WebProxyApi.strStartsWith (a ++ r) b = WebProxyApi.strStartsWith a b := by
  unfold WebProxyApi.strStartsWith
  rw [String.data_append]
  have htake : List.take b.data.length (a.data ++ r.data) =
      List.take b.data.length a.data := by
    rw [List.take_append_eq_append_take, Nat.sub_eq_zero_of_le h, List.take_zero,
      List.append_nil]
  by_cases hp : b.data <+: a.data
  · rw [List.isPrefixOf_iff_prefix.mpr hp,
      List.isPrefixOf_iff_prefix.mpr (hp.trans (List.prefix_append a.data r.data))]
  · have hp2 : ¬ b.data <+: a.data ++ r.data := by
      rw [List.prefix_iff_eq_take, htake, ← List.prefix_iff_eq_take]
      exact hp
    have e1 : b.data.isPrefixOf a.data = false := by
      rw [Bool.eq_false_iff]
      intro hq
      exact hp (List.isPrefixOf_iff_prefix.mp hq)
    have e2 : b.data.isPrefixOf (a.data ++ r.data) = false := by
      rw [Bool.eq_false_iff]
      intro hq
      exact hp2 (List.isPrefixOf_iff_prefix.mp hq)
    rw [e1, e2]

theorem normalizeProxy_sock5h (proxy r : String)
    (ht : WebProxyApi.strTrim proxy = "sock5h://" ++ r) :
    normalizeProxy proxy = "socks5h://" ++ r := by
  have h1 : WebProxyApi.strStartsWith ("sock5h://" ++ r) "sock5h://" = true := by
    rw [strStartsWith_append_left _ _ _ (by decide)]
    decide
  have hd : WebProxyApi.strDrop ("sock5h://" ++ r) 9 = r := by
    cases r
    rfl
  have h2 : WebProxyApi.strStartsWith ("socks5h://" ++ r) "sock5://" = false := by
    rw [strStartsWith_append_left _ _ _ (by decide)]
    decide
  have h3 : WebProxyApi.strStartsWith ("socks5h://" ++ r) "socks5://" = false := by
    rw [strStartsWith_append_left _ _ _ (by decide)]
    decide
  simp only [normalizeProxy, ht, h1, if_true, hd, h2, h3, Bool.false_eq_true,
    if_false]

theorem normalizeProxy_sock5 (proxy r : String)
    (ht : WebProxyApi.strTrim proxy = "sock5://" ++ r) :
    normalizeProxy proxy = "socks5h://" ++ r := by
  have h1 : WebProxyApi.strStartsWith ("sock5://" ++ r) "sock5h://" = false := by
    rw [show ("sock5://" ++ r : String) = "sock5://" ++ r from rfl]
    unfold WebProxyApi.strStartsWith
    rw [String.data_append]
    rw [Bool.eq_false_iff]
    intro hq
    have := List.isPrefixOf_iff_prefix.mp hq
    rw [List.prefix_iff_eq_take] at this
    simp at this
  have h2 : WebProxyApi.strStartsWith ("sock5://" ++ r) "sock5://" = true := by
    rw [strStartsWith_append_left _ _ _ (by decide)]
    decide
  have hd : WebProxyApi.strDrop ("sock5://" ++ r) 8 = r := by
    cases r
    rfl
  have h3 : WebProxyApi.strStartsWith ("socks5://" ++ r) "socks5://" = true := by
    rw [strStartsWith_append_left _ _ _ (by decide)]
    decide
  have hd2 : WebProxyApi.strDrop ("socks5://" ++ r) 9 = r := by
    cases r
    rfl
  simp only [normalizeProxy, ht, h1, Bool.false_eq_true, if_false, h2, if_true,
    hd, h3, hd2]

theorem normalizeProxy_socks5 (proxy r : String)
    (ht : WebProxyApi.strTrim proxy = "socks5://" ++ r) :
    normalizeProxy proxy = "socks5h://" ++ r := by
  have h1 : WebProxyApi.strStartsWith ("socks5://" ++ r) "sock5h://" = false := by
    unfold WebProxyApi.strStartsWith
    rw [String.data_append]
    rw [Bool.eq_false_iff]
    intro hq
    have := List.isPrefixOf_iff_prefix.mp hq
    rw [List.prefix_iff_eq_take] at this
    simp at this
  have h2 : WebProxyApi.strStartsWith ("socks5://" ++ r) "sock5://" = false := by
    unfold WebProxyApi.strStartsWith
    rw [String.data_append]
    rw [Bool.eq_false_iff]
    intro hq
    have := List.isPrefixOf_iff_prefix.mp hq
    rw [List.prefix_iff_eq_take] at this
    simp at this
  have h3 : WebProxyApi.strStartsWith ("socks5://" ++ r) "socks5://" = true := by
    rw [strStartsWith_append_left _ _ _ (by decide)]
    decide
  have hd : WebProxyApi.strDrop ("socks5://" ++ r) 9 = r := by
    cases r
    rfl
  simp only [normalizeProxy, ht, h1, h2, Bool.false_eq_true, if_false, h3,
    if_true, hd]

end WebProxyApi.ProxyPool

namespace WebProxyApi.ProxyPool

/-- C7 counterexample: the claimed scheme list is too wide — `socks4://`
(and bare `socks://`) URLs pass normalization unchanged yet are rejected by
`validateProxy`, which accepts only `http://`, `https://`, `socks5://` and
`socks5h://`. -/
theorem C7_socks4_counterexample :
    WebProxyApi.strStartsWith "socks4://h" "socks4://" = true ∧
    normalizeProxy "socks4://h" = "socks4://h" ∧
    validateProxy "socks4://h" = false ∧
    validateProxy "socks://h" = false := by
  refine ⟨by decide, by decide, by decide, by decide⟩

/-- C7 (amended): `validateProxy` accepts exactly the non-empty strings
starting with `http://`, `https://`, `socks5://` or `socks5h://` (not
`socks4://` or `socks://`); normalization rewrites a trimmed leading
`sock5h://`, `sock5://` or `socks5://` to `socks5h://` and every normalized
`socks5h://` URL validates; on a fetched body, an invalid normalized value
keeps the previous truthy `currentProxy` or falls back to `staticProxy`,
while a valid one is installed with `lastFetchTime` updated. -/
theorem C7_proxy_spec (st : PoolState) (u body : String) (now : Int)
    (hp : st.poolUrl = some u) :
    (∀ proxy, validateProxy proxy = true ↔
      (proxy ≠ "" ∧ (WebProxyApi.strStartsWith proxy "http://" = true ∨
        WebProxyApi.strStartsWith proxy "https://" = true ∨
        WebProxyApi.strStartsWith proxy "socks5://" = true ∨
        WebProxyApi.strStartsWith proxy "socks5h://" = true))) ∧
    (∀ proxy r, WebProxyApi.strTrim proxy = "sock5h://" ++ r →
      normalizeProxy proxy = "socks5h://" ++ r) ∧
    (∀ proxy r, WebProxyApi.strTrim proxy = "sock5://" ++ r →
      normalizeProxy proxy = "socks5h://" ++ r) ∧
    (∀ proxy r, WebProxyApi.strTrim proxy = "socks5://" ++ r →
      normalizeProxy proxy = "socks5h://" ++ r) ∧
    (∀ r : String, validateProxy ("socks5h://" ++ r) = true) ∧
    (validateProxy (normalizeProxy (WebProxyApi.strTrim body)) = false →
      fetchProxy st (FetchOutcome.text body) now = fallbackCurrent st) ∧
    (falsyOpt st.currentProxy = false → fallbackCurrent st = st) ∧
    (falsyOpt st.currentProxy = true →
      fallbackCurrent st = { st with currentProxy := st.staticProxy }) ∧
    (validateProxy (normalizeProxy (WebProxyApi.strTrim body)) = true →
      fetchProxy st (FetchOutcome.text body) now =
        { st with
            currentProxy := some (normalizeProxy (WebProxyApi.strTrim body)),
            lastFetchTime := now }) := by
  refine ⟨?_, normalizeProxy_sock5h, normalizeProxy_sock5,
    normalizeProxy_socks5, ?_, ?_, ?_, ?_, ?_⟩
  · intro proxy
    unfold validateProxy
    by_cases he : proxy = ""
    · simp [he]
    · rw [if_neg he]
      simp only [Bool.or_eq_true, ne_eq, he, not_false_iff, true_and]
      tauto
  · intro r
    have h4 : WebProxyApi.strStartsWith ("socks5h://" ++ r) "socks5h://" = true := by
      rw [strStartsWith_append_left _ _ _ (by decide)]
      decide
    have hne : ("socks5h://" ++ r : String) ≠ "" := by
      intro hq
      have : ("socks5h://" ++ r : String).data = "".data := by rw [hq]
      rw [String.data_append] at this
      simp at this
    unfold validateProxy
    rw [if_neg hne, h4]
    simp
  · intro hinv
    simp only [fetchProxy, hp, hinv, Bool.false_eq_true, if_false]
  · intro hcp
    unfold fallbackCurrent
    rw [hcp]
    simp
  · intro hcp
    unfold fallbackCurrent
    rw [hcp]
    simp
  · intro hval
    simp only [fetchProxy, hp, hval, if_true]

/-- C7 at a concrete input: a state with a pool URL and an empty
`currentProxy`, fetching the body `" sock5://h "`, installs the normalized
`socks5h://h`. -/
theorem C7_proxy_spec_witness :
    (⟨some "socks5h://s", some "http://pool", some "", 0, 300, true⟩ :
      PoolState).poolUrl = some "http://pool" ∧
    (validateProxy (normalizeProxy (WebProxyApi.strTrim " sock5://h ")) = true →
      fetchProxy
        (⟨some "socks5h://s", some "http://pool", some "", 0, 300, true⟩ :
          PoolState) (FetchOutcome.text " sock5://h ") 7 =
        { (⟨some "socks5h://s", some "http://pool", some "", 0, 300, true⟩ :
            PoolState) with
            currentProxy :=
              some (normalizeProxy (WebProxyApi.strTrim " sock5://h ")),
            lastFetchTime := 7 }) ∧
    WebProxyApi.strTrim " sock5://h " = "sock5://" ++ "h" ∧
    normalizeProxy " sock5://h " = "socks5h://" ++ "h" := by
  refine ⟨rfl, ?_, by decide, ?_⟩
  · exact (C7_proxy_spec
      (⟨some "socks5h://s", some "http://pool", some "", 0, 300, true⟩ :
        PoolState) "http://pool" " sock5://h " 7 rfl).2.2.2.2.2.2.2.2
  · exact (C7_proxy_spec
      (⟨some "socks5h://s", some "http://pool", some "", 0, 300, true⟩ :
        PoolState) "http://pool" " sock5://h " 7 rfl).2.2.1 " sock5://h " "h"
      (by decide)

end WebProxyApi.ProxyPool

namespace WebProxyApi.Pow

/-- C4 counterexample: on a solver returning status `1` and value `-3/2`,
the cited `compute_pow_answer` of `server/projects/deepseek/handler.ts`
answers with `Math.floor` (`-2`), not `Math.trunc` (`-1`) as claimed — the
two implementations disagree on every negative non-integer value. -/
theorem C4_floor_trunc_counterexample :
    computePowAnswer ⟨"DeepSeekHashV1", "abc", "s", 100, 1700000000⟩
      (fun _ _ _ => ⟨1, -(3/2 : ℚ)⟩) = Except.ok (-1) ∧
    compute_pow_answer "DeepSeekHashV1" "abc" "s" 100 1700000000
      (fun _ _ _ => ⟨1, -(3/2 : ℚ)⟩) = Except.ok (some (-2)) := by
  constructor
  · simp only [computePowAnswer, compute_pow_answer]
    norm_num [jsTrunc]
  · simp only [compute_pow_answer]
    norm_num [jsFloor]

end WebProxyApi.Pow

namespace WebProxyApi.Pow

/-- C4 (amended): both implementations reject any algorithm other than
`DeepSeekHashV1` and hand the solver the prefix `` `${salt}_${expire_at}_` ``
(for the S2 challenge, `"s_1700000000_"`); on status `0` the `index.ts`
implementation errors while the `handler.ts` one returns `null`; on a
non-zero status `index.ts` answers `Math.trunc(value)` but `handler.ts`
answers `Math.floor(value)`; the `x-ds-pow-response` header is the base64
of the UTF-8 JSON payload over the trunc answer (defaults
`difficulty ?? 144000`, `expire_at ?? 1680000000`), and on the S2 challenge
with a solver answering `12345` it equals the concrete base64 literal. -/
theorem C4_pow_spec (c : PowChallenge) (solve : Solver) (w : PowChallengeWire) :
    (c.algorithm ≠ "DeepSeekHashV1" →
      computePowAnswer c solve =
        Except.error ("Unsupported PoW algorithm: " ++ c.algorithm) ∧
      compute_pow_answer c.algorithm c.challenge c.salt c.difficulty
        c.expire_at solve =
        Except.error ("Unsupported PoW algorithm: " ++ c.algorithm)) ∧
    (c.algorithm = "DeepSeekHashV1" →
      ((solve c.challenge (powPrefixString c.salt c.expire_at)
          c.difficulty).status = 0 →
        computePowAnswer c solve =
          Except.error "Failed to solve DeepSeek PoW challenge" ∧
        compute_pow_answer c.algorithm c.challenge c.salt c.difficulty
          c.expire_at solve = Except.ok none) ∧
      ((solve c.challenge (powPrefixString c.salt c.expire_at)
          c.difficulty).status ≠ 0 →
        computePowAnswer c solve =
          Except.ok (jsTrunc (solve c.challenge
            (powPrefixString c.salt c.expire_at) c.difficulty).value) ∧
        compute_pow_answer c.algorithm c.challenge c.salt c.difficulty
          c.expire_at solve =
          Except.ok (some (jsFloor (solve c.challenge
            (powPrefixString c.salt c.expire_at) c.difficulty).value)))) ∧
    powPrefixString "s" 1700000000 = "s_1700000000_" ∧
    createPowResponseHeader w solve =
      Except.map
        (fun answer => base64Encode (utf8Bytes (jsonPowPayload w.algorithm
          w.challenge w.salt answer w.signature w.target_path)))
        (computePowAnswer
          ⟨w.algorithm, w.challenge, w.salt, w.difficulty.getD 144000,
            w.expire_at.getD 1680000000⟩ solve) ∧
    createPowResponseHeader
      ⟨"DeepSeekHashV1", "abc", "s", some 100, some 1700000000, "sig", "/x"⟩
      (fun _ _ _ => ⟨1, (12345 : ℚ)⟩) =
      Except.ok "eyJhbGdvcml0aG0iOiJEZWVwU2Vla0hhc2hWMSIsImNoYWxsZW5nZSI6ImFiYyIsInNhbHQiOiJzIiwiYW5zd2VyIjoxMjM0NSwic2lnbmF0dXJlIjoic2lnIiwidGFyZ2V0X3BhdGgiOiIveCJ9" := by
  refine ⟨?_, ?_, rfl, ?_, ?_⟩
  · intro h
    constructor
    · simp only [computePowAnswer, if_pos h]
    · simp only [compute_pow_answer, if_pos h]
  · intro halg
    have hno : ¬ c.algorithm ≠ "DeepSeekHashV1" := by simp [halg]
    constructor
    · intro hst
      constructor
      · simp only [computePowAnswer, if_neg hno]
        rw [if_pos hst]
      · simp only [compute_pow_answer, if_neg hno]
        rw [if_pos hst]
    · intro hst
      constructor
      · simp only [computePowAnswer, if_neg hno]
        rw [if_neg hst]
      · simp only [compute_pow_answer, if_neg hno]
        rw [if_neg hst]
  · cases h : computePowAnswer
      ⟨w.algorithm, w.challenge, w.salt, w.difficulty.getD 144000,
        w.expire_at.getD 1680000000⟩ solve with
    | error e =>
      simp [createPowResponseHeader, h, Except.map, Bind.bind, Except.bind]
    | ok a =>
      simp [createPowResponseHeader, h, Except.map, Bind.bind, Except.bind,
        Pure.pure, Except.pure]
  · rfl

end WebProxyApi.Pow

namespace WebProxyApi.GrokClient

/-- C10 counterexample: `resetFailure` does not stop at the first map that
contains the key.  With `"t"` present in both maps — `failedCount 0` in
`ssoNormal`, `failedCount 2` in `ssoSuper` — the reset skips the
`ssoNormal` match (its `failedCount > 0` guard fails) and rewrites the
`ssoSuper` record instead. -/
theorem C10_reset_counterexample :
    resetFailure "sso=t"
      ⟨[("t", ⟨none, some 5, none, "active", some 0, none, none⟩)],
       [("t", ⟨none, some 5, none, "active", some 2, some 11, some "401: x"⟩)]⟩ =
      (⟨[("t", ⟨none, some 5, none, "active", some 0, none, none⟩)],
        [("t", ⟨none, some 5, none, "active", some 0, none, none⟩)]⟩, true) := by
  rfl

/-- C10 (amended): when the cookie has no `sso=` pair neither function
writes; `recordFailure` modifies exactly the record of the extracted key in
the first map that contains it (`ssoNormal` before `ssoSuper`) and stops at
the first containment; `resetFailure` searches the same order but a match
only stops the search when its `failedCount > 0` — a zero-count `ssoNormal`
match falls through to `ssoSuper` — and when no map qualifies nothing is
written; in every case all records under other keys, in both maps, are
unchanged. -/
theorem C10_failure_frame (authToken msg : String) (status now : Int)
    (data : GrokTokenData) (sso k : String) :
    (extractSso authToken = none →
      recordFailure authToken status msg now data = (data, false) ∧
      resetFailure authToken data = (data, false)) ∧
    (extractSso authToken = some sso →
      (∀ r, WebProxyApi.AList.getKey sso data.ssoNormal = some r →
        recordFailure authToken status msg now data =
          ({ data with ssoNormal := WebProxyApi.AList.setKey sso (applyFailure status msg now r) data.ssoNormal }, true)) ∧
      (WebProxyApi.AList.getKey sso data.ssoNormal = none →
        (∀ r, WebProxyApi.AList.getKey sso data.ssoSuper = some r →
          recordFailure authToken status msg now data =
            ({ data with ssoSuper := WebProxyApi.AList.setKey sso (applyFailure status msg now r) data.ssoSuper }, true)) ∧
        (WebProxyApi.AList.getKey sso data.ssoSuper = none →
          recordFailure authToken status msg now data = (data, false))) ∧
      (∀ r, WebProxyApi.AList.getKey sso data.ssoNormal = some r →
        0 < r.failedCount.getD 0 →
        resetFailure authToken data =
          ({ data with ssoNormal := WebProxyApi.AList.setKey sso (applyReset r) data.ssoNormal }, true)) ∧
      ((match WebProxyApi.AList.getKey sso data.ssoNormal with
        | some r => ¬ 0 < r.failedCount.getD 0
        | none => True) →
        (∀ r2, WebProxyApi.AList.getKey sso data.ssoSuper = some r2 →
          0 < r2.failedCount.getD 0 →
          resetFailure authToken data =
            ({ data with ssoSuper := WebProxyApi.AList.setKey sso (applyReset r2) data.ssoSuper }, true)) ∧
        ((match WebProxyApi.AList.getKey sso data.ssoSuper with
          | some r2 => ¬ 0 < r2.failedCount.getD 0
          | none => True) →
          resetFailure authToken data = (data, false))) ∧
      (k ≠ sso →
        WebProxyApi.AList.getKey k
          (recordFailure authToken status msg now data).1.ssoNormal =
          WebProxyApi.AList.getKey k data.ssoNormal ∧
        WebProxyApi.AList.getKey k
          (recordFailure authToken status msg now data).1.ssoSuper =
          WebProxyApi.AList.getKey k data.ssoSuper ∧
        WebProxyApi.AList.getKey k
          (resetFailure authToken data).1.ssoNormal =
          WebProxyApi.AList.getKey k data.ssoNormal ∧
        WebProxyApi.AList.getKey k
          (resetFailure authToken data).1.ssoSuper =
          WebProxyApi.AList.getKey k data.ssoSuper)) := by
  constructor
  · intro h
    constructor
    · unfold recordFailure
      rw [h]
    · unfold resetFailure
      rw [h]
  · intro hsso
    have hrecN : ∀ r, WebProxyApi.AList.getKey sso data.ssoNormal = some r →
        recordFailure authToken status msg now data =
          ({ data with ssoNormal := WebProxyApi.AList.setKey sso (applyFailure status msg now r) data.ssoNormal }, true) := by
      intro r hN
      unfold recordFailure
      rw [hsso]
      simp only []
      rw [hN]
    have hrecS : WebProxyApi.AList.getKey sso data.ssoNormal = none →
        ∀ r, WebProxyApi.AList.getKey sso data.ssoSuper = some r →
        recordFailure authToken status msg now data =
          ({ data with ssoSuper := WebProxyApi.AList.setKey sso (applyFailure status msg now r) data.ssoSuper }, true) := by
      intro hN r hS
      unfold recordFailure
      rw [hsso]
      simp only []
      rw [hN]
      simp only []
      rw [hS]
    have hrec0 : WebProxyApi.AList.getKey sso data.ssoNormal = none →
        WebProxyApi.AList.getKey sso data.ssoSuper = none →
        recordFailure authToken status msg now data = (data, false) := by
      intro hN hS
      unfold recordFailure
      rw [hsso]
      simp only []
      rw [hN]
      simp only []
      rw [hS]
    have hresN : ∀ r, WebProxyApi.AList.getKey sso data.ssoNormal = some r →
        0 < r.failedCount.getD 0 →
        resetFailure authToken data =
          ({ data with ssoNormal := WebProxyApi.AList.setKey sso (applyReset r) data.ssoNormal }, true) := by
      intro r hN hf
      unfold resetFailure
      rw [hsso]
      simp only []
      rw [hN]
      simp only []
      rw [if_pos hf]
    have hresS : (match WebProxyApi.AList.getKey sso data.ssoNormal with
        | some r => ¬ 0 < r.failedCount.getD 0
        | none => True) →
        ∀ r2, WebProxyApi.AList.getKey sso data.ssoSuper = some r2 →
        0 < r2.failedCount.getD 0 →
        resetFailure authToken data =
          ({ data with ssoSuper := WebProxyApi.AList.setKey sso (applyReset r2) data.ssoSuper }, true) := by
      intro hfall r2 hS hf2
      unfold resetFailure
      rw [hsso]
      simp only []
      rw [hS]
      simp only []
      rw [if_pos hf2]
      cases hN : WebProxyApi.AList.getKey sso data.ssoNormal with
      | none => simp only []
      | some r =>
        rw [hN] at hfall
        simp only []
        rw [if_neg hfall]
    have hres0 : (match WebProxyApi.AList.getKey sso data.ssoNormal with
        | some r => ¬ 0 < r.failedCount.getD 0
        | none => True) →
        (match WebProxyApi.AList.getKey sso data.ssoSuper with
        | some r2 => ¬ 0 < r2.failedCount.getD 0
        | none => True) →
        resetFailure authToken data = (data, false) := by
      intro hfall hfall2
      unfold resetFailure
      rw [hsso]
      simp only []
      cases hS : WebProxyApi.AList.getKey sso data.ssoSuper with
      | none =>
        simp only []
        cases hN : WebProxyApi.AList.getKey sso data.ssoNormal with
        | none => simp only []
        | some r =>
          rw [hN] at hfall
          simp only []
          rw [if_neg hfall]
      | some r2 =>
        rw [hS] at hfall2
        simp only []
        rw [if_neg hfall2]
        cases hN : WebProxyApi.AList.getKey sso data.ssoNormal with
        | none => simp only []
        | some r =>
          rw [hN] at hfall
          simp only []
          rw [if_neg hfall]
    refine ⟨hrecN, fun hN => ⟨hrecS hN, hrec0 hN⟩, hresN,
      fun hfall => ⟨hresS hfall, hres0 hfall⟩, ?_⟩
    intro hk
    have hrec : WebProxyApi.AList.getKey k
        (recordFailure authToken status msg now data).1.ssoNormal =
        WebProxyApi.AList.getKey k data.ssoNormal ∧
        WebProxyApi.AList.getKey k
          (recordFailure authToken status msg now data).1.ssoSuper =
        WebProxyApi.AList.getKey k data.ssoSuper := by
      cases hN : WebProxyApi.AList.getKey sso data.ssoNormal with
      | some r =>
        rw [hrecN r hN]
        exact ⟨WebProxyApi.AList.getKey_setKey_ne sso k _ _ hk, rfl⟩
      | none =>
        cases hS : WebProxyApi.AList.getKey sso data.ssoSuper with
        | some r =>
          rw [hrecS hN r hS]
          exact ⟨rfl, WebProxyApi.AList.getKey_setKey_ne sso k _ _ hk⟩
        | none =>
          rw [hrec0 hN hS]
          exact ⟨rfl, rfl⟩
    have hres : WebProxyApi.AList.getKey k
        (resetFailure authToken data).1.ssoNormal =
        WebProxyApi.AList.getKey k data.ssoNormal ∧
        WebProxyApi.AList.getKey k
          (resetFailure authToken data).1.ssoSuper =
        WebProxyApi.AList.getKey k data.ssoSuper := by
      cases hN : WebProxyApi.AList.getKey sso data.ssoNormal with
      | some r =>
        by_cases hf : 0 < r.failedCount.getD 0
        · rw [hresN r hN hf]
          exact ⟨WebProxyApi.AList.getKey_setKey_ne sso k _ _ hk, rfl⟩
        · have hfall : (match WebProxyApi.AList.getKey sso data.ssoNormal with
              | some r => ¬ 0 < r.failedCount.getD 0
              | none => True) := by
            rw [hN]
            exact hf
          cases hS : WebProxyApi.AList.getKey sso data.ssoSuper with
          | some r2 =>
            by_cases hf2 : 0 < r2.failedCount.getD 0
            · rw [hresS hfall r2 hS hf2]
              exact ⟨rfl, WebProxyApi.AList.getKey_setKey_ne sso k _ _ hk⟩
            · rw [hres0 hfall (by rw [hS]; exact hf2)]
              exact ⟨rfl, rfl⟩
          | none =>
            rw [hres0 hfall (by rw [hS]; trivial)]
            exact ⟨rfl, rfl⟩
      | none =>
        have hfall : (match WebProxyApi.AList.getKey sso data.ssoNormal with
            | some r => ¬ 0 < r.failedCount.getD 0
            | none => True) := by
          rw [hN]
          trivial
        cases hS : WebProxyApi.AList.getKey sso data.ssoSuper with
        | some r2 =>
          by_cases hf2 : 0 < r2.failedCount.getD 0
          · rw [hresS hfall r2 hS hf2]
            exact ⟨rfl, WebProxyApi.AList.getKey_setKey_ne sso k _ _ hk⟩
          · rw [hres0 hfall (by rw [hS]; exact hf2)]
            exact ⟨rfl, rfl⟩
        | none =>
          rw [hres0 hfall (by rw [hS]; trivial)]
          exact ⟨rfl, rfl⟩
    exact ⟨hrec.1, hrec.2, hres.1, hres.2⟩

end WebProxyApi.GrokClient

namespace WebProxyApi.GrokClient

/-- C1: the spec (and `src/docs/GROK_INTEGRATION.md`, and the
`requiresSuper: true` flag on `grok-4-heavy` in the model table) require
`grok-4-heavy` to be served only by `ssoSuper` tokens, but `selectToken`
scans `ssoNormal` first for every model and never consults `requiresSuper`.
On the claim's own store — normal token `A` with quota `-1`, super token
`B` with quota `5`, both active — the code selects `A` from `ssoNormal`
for `grok-4-heavy` as well as for `grok-4-fast`, never `B`: the documented
super-only rule is unenforced in the code. -/
theorem C1_heavy_selection_eval :
    selectToken
      ⟨[("A", ⟨none, some (-1), some (-1), "active", none, none, none⟩)],
       [("B", ⟨none, some 5, some 5, "active", none, none, none⟩)]⟩
      "grok-4-heavy" = some ("A", "ssoNormal") ∧
    selectToken
      ⟨[("A", ⟨none, some (-1), some (-1), "active", none, none, none⟩)],
       [("B", ⟨none, some 5, some 5, "active", none, none, none⟩)]⟩
      "grok-4-fast" = some ("A", "ssoNormal") := by
  exact ⟨rfl, rfl⟩

end WebProxyApi.GrokClient
